import Mathlib

/-!
Verification of the KryptoPay SDK checkout core against its design notes.

The definitions below are a shallow embedding of the TypeScript sources:

* `src/ui/state.ts` — `CheckoutState`, `toPublicError` (the full normalizer
  with the numeric wallet-code branches);
* `src/core/http.ts` — `normalizeResolvedIntent`, `resolveIntent`;
* `src/core/polling.ts` — `waitForFinalStatus`;
* `src/ui/controller.ts` — `CheckoutController` (open, close, selectMethod,
  continue, keepWaiting, startWalletFlow, startPolling).

Modelling conventions:

* JavaScript thrown values are `ThrownValue`: an optional `code` that is a
  number or a string, an optional `message`, an optional boolean
  `recoverable`, and whether the value is an `Error` instance.
* Async calls are environments passed explicitly: the resolver is a function
  from the observation index to its outcome, the wallet adapter is a record
  of per-step outcomes.
* The clock is idealized: network calls are instantaneous and the polling
  sleep advances time by `intervalMs`, so the n-th observation happens at
  `startTime + n * intervalMs` and `Date.now() - start = n * intervalMs`
  inside the loop.  `startTime` is the absolute epoch time at loop entry
  (positive in reality; the JS falsiness of `pendingSince = 0` is kept).
* The controller's shared mutable `stopRequested` flag, which `close()` can
  raise while a polling loop is suspended, is modelled as a schedule
  `stopAt : Nat → Bool` giving the flag's value at each checkpoint of the
  loop (checkpoint n = the n-th `onUpdate`, checkpoint `count` = the check
  after the loop returns or throws).
* Callback invocations and state publications are recorded as an `Emit`
  trace in program order.
-/

set_option maxRecDepth 4000

namespace KryptoPay

/-- `payment_status` enum from `src/core/types.ts`. -/
inductive PaymentIntentStatus
  | requires_payment
  | pending_confirmations
  | succeeded
  | expired
  deriving DecidableEq, Repr

/-- `Mode` from `src/core/types.ts`. -/
inductive Mode
  | testnet
  | mainnet
  deriving DecidableEq, Repr

/-- `ChainKey` from `src/core/types.ts`. -/
inductive ChainKey
  | base
  | polygon
  deriving DecidableEq, Repr

/-- `Lane` from `src/core/types.ts`. -/
inductive Lane
  | sdk
  | manual
  deriving DecidableEq, Repr

/-- `ResolvedPaymentIntent` from `src/core/types.ts`: every field mandatory. -/
structure ResolvedPaymentIntent where
  id : String
  status : PaymentIntentStatus
  mode : Mode
  chain : ChainKey
  chain_id : Int
  confirmations_required : Nat
  amount_units : Nat
  decimals : Nat
  token_symbol : String
  token_address : String
  expected_wallet : String
  expires_at : String
  lane : Lane
  metadata : List (String × String)
  deriving DecidableEq, Repr

/-- `PaymentMethod` from `src/ui/state.ts`. -/
inductive PaymentMethod
  | wallet
  | manual
  deriving DecidableEq, Repr

/-- The public error shape `{code, message, recoverable}`. -/
structure PublicError where
  code : String
  message : String
  recoverable : Bool
  deriving DecidableEq, Repr

/-- A JavaScript `code` property: a number or a string. -/
inductive JsCode
  | num (n : Int)
  | str (s : String)
  deriving DecidableEq, Repr

/-- An arbitrary JavaScript thrown value, as far as `toPublicError` inspects
it: optional `code` (number or string), optional string `message`, optional
boolean `recoverable`, and whether it is an `Error` instance (an `Error`
always carries a string `message`, so `isError = true` comes with
`message = some m` for values arising from real JS). -/
structure ThrownValue where
  code : Option JsCode
  message : Option String
  recoverable : Option Bool
  isError : Bool
  deriving DecidableEq, Repr

/-- A whitespace character as JS `String.prototype.trim` strips it (the
common cases: space, tab, newline, carriage return). -/
def isJsWhitespace (ch : Char) : Bool :=
  ch = ' ' || ch = '\t' || ch = '\n' || ch = '\r'

/-- JS `String.prototype.trim`: strip leading and trailing whitespace. -/
def jsTrim (s : String) : String :=
  ⟨((s.toList.dropWhile isJsWhitespace).reverse.dropWhile isJsWhitespace).reverse⟩

/-- The TS pattern `typeof e.message === "string" && e.message.trim().length
? e.message : fallback` used by the wallet and string-code branches. -/
def messageOr (e : ThrownValue) (fallback : String) : String :=
  match e.message with
  | some m => if 0 < (jsTrim m).length then m else fallback
  | none => fallback

/-- `toPublicError` from `src/ui/state.ts` (lines 84-174): numeric wallet
codes first, then string codes, then the structured shape, then the generic
fallback.  The structured branch re-tests `typeof maybe.code === "string"`;
since the string-code branch already returned in that case, the inner match
on `e.code` mirrors the source's re-test (and is unreachable).  The 4902
message uses "does not" where the source has a contraction. -/
def toPublicError (e : ThrownValue) : PublicError :=
  match e.code with
  | some (.num n) =>
    if n = 4001 then
      ⟨"wallet_user_rejected", "You cancelled the request in your wallet.", true⟩
    else if n = -32002 then
      ⟨"wallet_request_pending",
       "A wallet request is already pending. Open your wallet to continue or cancel the pending request.",
       true⟩
    else if n = 4902 then
      ⟨"wallet_chain_not_added",
       "Your wallet does not have this network added. Please switch networks manually in your wallet or use manual payment.",
       true⟩
    else
      ⟨"wallet_error", messageOr e "Wallet error", true⟩
  | some (.str s) =>
    ⟨s, messageOr e "Unknown error", true⟩
  | none =>
    match e.code, e.recoverable with
    | some (.str s), some r =>
      ⟨s, e.message.getD "Unknown error", r⟩
    | _, _ =>
      ⟨"unknown_error",
       (match e.message with
        | some m => if e.isError then m else "Unknown error"
        | none => "Unknown error"),
       false⟩

/-! ## The HTTP resolver (`src/core/http.ts`) -/

/-- The raw JSON body of a 2xx resolve response, as far as
`normalizeResolvedIntent` reads it: each key optional, with both the
snake_case and the camelCase spelling where the source accepts both. -/
structure RawIntentBody where
  id : Option String
  status : Option PaymentIntentStatus
  mode : Option Mode
  chain : Option ChainKey
  chain_id : Option Int
  chainId : Option Int
  confirmations_required : Option Nat
  confirmationsRequired : Option Nat
  amount_units : Option Nat
  amountUnits : Option Nat
  decimals : Option Nat
  token_symbol : Option String
  tokenSymbol : Option String
  token_address : Option String
  tokenAddress : Option String
  expected_wallet : Option String
  expectedWallet : Option String
  expires_at : Option String
  expiresAt : Option String
  lane : Option Lane
  metadata : Option (List (String × String))
  deriving DecidableEq, Repr

/-- `Partial<ResolvedPaymentIntent>`: what `normalizeResolvedIntent`
returns before the required-field check. -/
structure IntentFields where
  id : Option String
  status : Option PaymentIntentStatus
  mode : Option Mode
  chain : Option ChainKey
  chain_id : Option Int
  confirmations_required : Option Nat
  amount_units : Option Nat
  decimals : Option Nat
  token_symbol : Option String
  token_address : Option String
  expected_wallet : Option String
  expires_at : Option String
  lane : Option Lane
  metadata : Option (List (String × String))
  deriving DecidableEq, Repr

/-- The `return {}` of `normalizeResolvedIntent` for a null or non-object
payload: no field set, no defensive defaults applied. -/
def emptyIntentFields : IntentFields :=
  ⟨none, none, none, none, none, none, none, none, none, none, none, none,
   none, none⟩

/-- `normalizeResolvedIntent` from `src/core/http.ts` (lines 27-59).
`??` becomes `<|>` on `Option`; `raw.metadata ?? {}` always yields a value,
so the later `if (!normalized.metadata)` is a no-op; the falsy check
`if (!normalized.lane)` defaults a missing lane to `"sdk"`. -/
def normalizeResolvedIntent (raw : Option RawIntentBody) : IntentFields :=
  match raw with
  | none => emptyIntentFields
  | some raw =>
    { id := raw.id
      status := raw.status
      mode := raw.mode
      chain := raw.chain
      chain_id := raw.chain_id <|> raw.chainId
      confirmations_required :=
        raw.confirmations_required <|> raw.confirmationsRequired
      amount_units := raw.amount_units <|> raw.amountUnits
      decimals := raw.decimals
      token_symbol := raw.token_symbol <|> raw.tokenSymbol
      token_address := raw.token_address <|> raw.tokenAddress
      expected_wallet := raw.expected_wallet <|> raw.expectedWallet
      expires_at := raw.expires_at <|> raw.expiresAt
      lane := some ((raw.lane).getD Lane.sdk)
      metadata := some ((raw.metadata).getD []) }

/-- The `invalid_response` error raised for the first missing required key. -/
def missingFieldError (k : String) : PublicError :=
  ⟨"invalid_response", "Resolve endpoint response missing field: " ++ k, false⟩

/-- The required-key loop of `resolveIntent` (`src/core/http.ts` lines
148-174): the keys are tested in the source's order and the first missing
one is reported. -/
def checkRequired (p : IntentFields) : Except PublicError ResolvedPaymentIntent :=
  match p.id with
  | none => .error (missingFieldError "id")
  | some id =>
  match p.status with
  | none => .error (missingFieldError "status")
  | some status =>
  match p.mode with
  | none => .error (missingFieldError "mode")
  | some mode =>
  match p.chain with
  | none => .error (missingFieldError "chain")
  | some chain =>
  match p.chain_id with
  | none => .error (missingFieldError "chain_id")
  | some chain_id =>
  match p.confirmations_required with
  | none => .error (missingFieldError "confirmations_required")
  | some confirmations_required =>
  match p.amount_units with
  | none => .error (missingFieldError "amount_units")
  | some amount_units =>
  match p.decimals with
  | none => .error (missingFieldError "decimals")
  | some decimals =>
  match p.token_symbol with
  | none => .error (missingFieldError "token_symbol")
  | some token_symbol =>
  match p.token_address with
  | none => .error (missingFieldError "token_address")
  | some token_address =>
  match p.expected_wallet with
  | none => .error (missingFieldError "expected_wallet")
  | some expected_wallet =>
  match p.expires_at with
  | none => .error (missingFieldError "expires_at")
  | some expires_at =>
  match p.lane with
  | none => .error (missingFieldError "lane")
  | some lane =>
  match p.metadata with
  | none => .error (missingFieldError "metadata")
  | some metadata =>
    .ok ⟨id, status, mode, chain, chain_id, confirmations_required,
         amount_units, decimals, token_symbol, token_address,
         expected_wallet, expires_at, lane, metadata⟩

/-- The outcome of the single `fetch` call inside `resolveIntent`: either
the fetch itself threw, or an HTTP response with a status and a JSON body
(`none` = empty or non-JSON body, which `safeJson` turns into `null`). -/
inductive FetchOutcome
  | threw
  | response (status : Nat) (body : Option RawIntentBody)
  deriving Repr

/-- `Response.ok`: status in the range 200-299. -/
def statusOk (s : Nat) : Bool :=
  200 ≤ s && s < 300

/-- `resolveIntent` from `src/core/http.ts` (lines 72-177): network failure,
then the explicit status maps (400, 404, 410, 429), then the generic
`server_error` for any other non-ok status (recoverable iff >= 500), then
normalization and the required-key check. -/
def resolveIntent (o : FetchOutcome) : Except PublicError ResolvedPaymentIntent :=
  match o with
  | .threw =>
    .error ⟨"network_error", "Network error while resolving payment intent.", true⟩
  | .response status body =>
    if status = 400 then
      .error ⟨"invalid_body", "Invalid request body for resolve endpoint.", false⟩
    else if status = 404 then
      .error ⟨"intent_not_found", "Payment intent not found.", false⟩
    else if status = 410 then
      .error ⟨"intent_expired", "Payment intent has expired.", false⟩
    else if status = 429 then
      .error ⟨"rate_limited", "Too many requests. Please try again shortly.", true⟩
    else if !statusOk status then
      .error ⟨"server_error",
              "Server error while resolving payment intent (HTTP " ++ toString status ++ ").",
              decide (500 ≤ status)⟩
    else
      checkRequired (normalizeResolvedIntent body)

/-! ## The polling engine (`src/core/polling.ts`) -/

/-- How `waitForFinalStatus` ends: the loop returned an intent (terminal or
timed out) after `count` observations, or the `count`-th resolver call threw
(its `onUpdate` never ran, so `count` observations reached `onUpdate` in
this case too). -/
inductive PollOutcome
  | finished (intent : ResolvedPaymentIntent) (timedOut : Bool) (count : Nat)
  | threw (e : ThrownValue) (count : Nat)
  deriving DecidableEq, Repr

/-- Number of observations delivered to `onUpdate` before the loop ended. -/
def PollOutcome.count : PollOutcome → Nat
  | .finished _ _ c => c
  | .threw _ c => c

/-- The loop body of `waitForFinalStatus` (`src/core/polling.ts` lines
193-219), fuel-indexed.  Observation `n` happens at `n * intervalMs` after
the loop's start (idealized clock), so `Date.now() - start > timeoutMs`
is `n * intervalMs > timeoutMs`.  The terminal check runs after `onUpdate`
and before the timeout check, exactly as in the source; `none` means the
fuel ran out, which `pollFuel` rules out for a positive interval. -/
def waitAux (resolve : Nat → Except ThrownValue ResolvedPaymentIntent)
    (intervalMs timeoutMs : Nat) : Nat → Nat → Option PollOutcome
  | _, 0 => none
  | n, fuel + 1 =>
    match resolve n with
    | .error e => some (.threw e n)
    | .ok intent =>
      if intent.status = .succeeded ∨ intent.status = .expired then
        some (.finished intent false (n + 1))
      else if n * intervalMs > timeoutMs then
        some (.finished intent true (n + 1))
      else
        waitAux resolve intervalMs timeoutMs (n + 1) fuel

/-- Enough fuel for the whole loop: the loop recurses only while
`n * intervalMs ≤ timeoutMs`. -/
def pollFuel (intervalMs timeoutMs : Nat) : Nat :=
  timeoutMs / intervalMs + 2

/-- `waitForFinalStatus` from `src/core/polling.ts`, as the outcome of the
whole loop. -/
def waitForFinalStatus (resolve : Nat → Except ThrownValue ResolvedPaymentIntent)
    (intervalMs timeoutMs : Nat) : Option PollOutcome :=
  waitAux resolve intervalMs timeoutMs 0 (pollFuel intervalMs timeoutMs)

/-! ## The checkout controller (`src/ui/controller.ts`) -/

/-- `CheckoutState` from `src/ui/state.ts` (lines 15-51). -/
inductive CheckoutState
  | idle
  | loading_intent
  | choose_method (intent : ResolvedPaymentIntent) (selected : PaymentMethod)
      (message : Option String)
  | manual_instructions (intent : ResolvedPaymentIntent)
  | waiting (intent : ResolvedPaymentIntent) (pendingConfirmationsSince : Option Nat)
  | awaiting_confirmation (intent : ResolvedPaymentIntent)
  | success (intent : ResolvedPaymentIntent)
  | expired (intent : ResolvedPaymentIntent)
  | error (error : PublicError) (lastIntent : Option ResolvedPaymentIntent)
  | wallet_connecting (intent : ResolvedPaymentIntent)
  | wallet_switching_chain (intent : ResolvedPaymentIntent)
  | wallet_sending (intent : ResolvedPaymentIntent) (fromAddr : String)
  | wallet_submitted (intent : ResolvedPaymentIntent) (txHash : String)
  deriving DecidableEq, Repr

/-- One observable effect of the controller: a state published to
subscribers, or an invocation of one of the four config callbacks. -/
inductive Emit
  | published (s : CheckoutState)
  | cbClose
  | cbSuccess (payment_intent_id : String) (tx_hash : String)
      (chain : ChainKey) (mode : Mode)
  | cbAwaitingConfirmation (payment_intent_id : String)
  | cbError (e : PublicError)
  deriving DecidableEq, Repr

/-- The controller configuration after the constructor resolved it:
`allowManual`, `allowWallet` and `defaultMethod` (always set). -/
structure Config where
  allowManual : Bool
  allowWallet : Bool
  defaultMethod : PaymentMethod
  deriving DecidableEq, Repr

/-- The constructor of `CheckoutController` (lines 44-55): spread defaults
`allowManual = true`, `allowWallet = true`, `defaultMethod = "wallet"`,
then force the default method away from a disabled side (wallet check
first, manual check second). -/
def resolveConfig (allowManual allowWallet : Option Bool)
    (defaultMethod : Option PaymentMethod) : Config :=
  let am := allowManual.getD true
  let aw := allowWallet.getD true
  let dm := defaultMethod.getD .wallet
  let dm := if aw = false then .manual else dm
  let dm := if am = false then .wallet else dm
  ⟨am, aw, dm⟩

/-- `getInitialMethod` (lines 180-189): prefer the configured default when
it is enabled, otherwise wallet when enabled, otherwise manual. -/
def getInitialMethod (cfg : Config) : PaymentMethod :=
  if cfg.defaultMethod = .wallet ∧ cfg.allowWallet then .wallet
  else if cfg.defaultMethod = .manual ∧ cfg.allowManual then .manual
  else if cfg.allowWallet then .wallet
  else .manual

/-- The mutable fields of a `CheckoutController` instance together with its
per-instance constants (`awaitingThresholdMs`, `pollIntervalMs`,
`pollTimeoutMs` are private fields fixed at construction). -/
structure Ctl where
  config : Config
  state : CheckoutState
  isRunning : Bool
  stopRequested : Bool
  awaitingThresholdMs : Nat
  pollIntervalMs : Nat
  pollTimeoutMs : Nat
  lastTxHash : Option String

/-- A freshly constructed controller: `idle`, not running, with the default
constants 60 s / 2.5 s / 10 min. -/
def mkController (allowManual allowWallet : Option Bool)
    (defaultMethod : Option PaymentMethod) : Ctl :=
  ⟨resolveConfig allowManual allowWallet defaultMethod, .idle, false, false,
   60000, 2500, 600000, none⟩

/-- The environment of one `startPolling` run: the absolute clock value at
loop entry, the schedule of the shared `stopRequested` flag at each
checkpoint, and the resolver outcomes by observation index. -/
structure PollEnv where
  startTime : Nat
  stopAt : Nat → Bool
  resolve : Nat → Except ThrownValue ResolvedPaymentIntent

/-- The last state published in a trace, if any. -/
def lastPublished (es : List Emit) : Option CheckoutState :=
  es.foldl (fun acc e => match e with | .published s => some s | _ => acc) none

/-- The `lastIntent` computation of `startPolling`'s catch block (lines
388-394): keep the intent of the current state when it carries one of the
four listed shapes. -/
def stateIntentForCatch : CheckoutState → Option ResolvedPaymentIntent
  | .waiting intent _ => some intent
  | .manual_instructions intent => some intent
  | .choose_method intent _ _ => some intent
  | .awaiting_confirmation intent => some intent
  | _ => none

/-- The JS falsiness of the closure variable `pendingSince`
(`if (!pendingSince) pendingSince = Date.now()`): unset, or set to 0. -/
def jsFalsyTime : Option Nat → Bool
  | none => true
  | some 0 => true
  | some _ => false

/-- The state of the `onUpdate` closure after a polling run: the mutable
`pendingSince` and the effects the invocations emitted, in order. -/
structure UpdAcc where
  pendingSince : Option Nat
  emits : List Emit
  deriving DecidableEq, Repr

/-- One `onUpdate` invocation (`src/ui/controller.ts` lines 303-341): bail
out when stop was requested; on `pending_confirmations` set `pendingSince`
(falsy check) and either escalate (fire `onAwaitingConfirmation` and publish
`awaiting_confirmation`) when the dwell reached the threshold, or publish
`waiting` with the tracked `pendingSince`; on `requires_payment` reset
`pendingSince`; otherwise publish `waiting` unchanged.  Returns the updated
`pendingSince` and what this call emitted. -/
def onUpdateStep (threshold intervalMs startTime : Nat) (stopAt : Nat → Bool)
    (ps : Option Nat) (n : Nat) (intent : ResolvedPaymentIntent) :
    Option Nat × List Emit :=
  if stopAt n then (ps, [])
  else
    let now := startTime + n * intervalMs
    match intent.status with
    | .pending_confirmations =>
      let ps' := if jsFalsyTime ps then now else ps.getD now
      if threshold ≤ now - ps' then
        (some ps', [.cbAwaitingConfirmation intent.id,
                    .published (.awaiting_confirmation intent)])
      else
        (some ps', [.published (.waiting intent (some ps'))])
    | .requires_payment =>
      (none, [.published (.waiting intent none)])
    | _ =>
      (ps, [.published (.waiting intent ps)])

/-- Runs `onUpdate` for observations `n, n+1, …, n+left-1`, threading the
closure's `pendingSince` and accumulating the emissions in reverse (an
observation whose resolver call threw never reaches `onUpdate`). -/
def runUpdatesGo (threshold intervalMs startTime : Nat) (stopAt : Nat → Bool)
    (resolve : Nat → Except ThrownValue ResolvedPaymentIntent) :
    Nat → Nat → Option Nat → List Emit → UpdAcc
  | _, 0, ps, accRev => ⟨ps, accRev.reverse⟩
  | n, left + 1, ps, accRev =>
    match resolve n with
    | .ok intent =>
      let r := onUpdateStep threshold intervalMs startTime stopAt ps n intent
      runUpdatesGo threshold intervalMs startTime stopAt resolve
        (n + 1) left r.1 (r.2.reverse ++ accRev)
    | .error _ =>
      runUpdatesGo threshold intervalMs startTime stopAt resolve
        (n + 1) left ps accRev

/-- All `onUpdate` invocations of one polling run, in order. -/
def runUpdates (threshold intervalMs startTime : Nat) (stopAt : Nat → Bool)
    (resolve : Nat → Except ThrownValue ResolvedPaymentIntent)
    (count : Nat) : UpdAcc :=
  runUpdatesGo threshold intervalMs startTime stopAt resolve 0 count none []

/-- `startPolling` (`src/ui/controller.ts` lines 286-398): return at once if
stop was already requested; publish the initial `waiting`; run the loop; if
stop was requested while awaited, publish nothing further; otherwise handle
`succeeded` (fire `onSuccess` then publish `success`), `expired`, the
timeout cases, or the catch block (normalize, fire `onError`, publish
`error` with the last known intent).  `tx_hash` falls back to `""` when no
wallet hash was recorded (the typed intent carries none). -/
def startPolling (c : Ctl) (penv : PollEnv)
    (initialIntent : ResolvedPaymentIntent) : Ctl × List Emit :=
  if c.stopRequested then (c, [])
  else
    let c1 : Ctl := { c with state := .waiting initialIntent none }
    let firstEmit : List Emit := [.published (.waiting initialIntent none)]
    match waitForFinalStatus penv.resolve c.pollIntervalMs c.pollTimeoutMs with
    | none => (c1, firstEmit)
    | some out =>
      let upd := runUpdates c.awaitingThresholdMs c.pollIntervalMs penv.startTime
        penv.stopAt penv.resolve out.count
      let c2 : Ctl := { c1 with state := (lastPublished upd.emits).getD c1.state }
      let emitted := firstEmit ++ upd.emits
      match out with
      | .finished intent timedOut cnt =>
        if penv.stopAt cnt then (c2, emitted)
        else if intent.status = .succeeded then
          ({ c2 with state := .success intent },
           emitted ++ [.cbSuccess intent.id (c.lastTxHash.getD "") intent.chain intent.mode,
                       .published (.success intent)])
        else if intent.status = .expired then
          ({ c2 with state := .expired intent },
           emitted ++ [.published (.expired intent)])
        else if timedOut then
          if intent.status = .pending_confirmations then
            ({ c2 with state := .awaiting_confirmation intent },
             emitted ++ [.cbAwaitingConfirmation intent.id,
                         .published (.awaiting_confirmation intent)])
          else
            ({ c2 with state := .waiting intent upd.pendingSince },
             emitted ++ [.published (.waiting intent upd.pendingSince)])
        else (c2, emitted)
      | .threw e cnt =>
        if penv.stopAt cnt then (c2, emitted)
        else
          let pub := toPublicError e
          let lastIntent := stateIntentForCatch c2.state
          ({ c2 with state := .error pub lastIntent },
           emitted ++ [.cbError pub, .published (.error pub lastIntent)])

/-- `open()` (lines 87-111): no-op when already running; otherwise raise
`isRunning`, clear `stopRequested`, publish `loading_intent`, and either
enter `choose_method` with the initial method or normalize the resolver
failure, fire `onError` and publish `error` (no intent yet). -/
def openCtl (c : Ctl)
    (resolved : Except ThrownValue ResolvedPaymentIntent) : Ctl × List Emit :=
  if c.isRunning then (c, [])
  else
    let c1 : Ctl := { c with isRunning := true, stopRequested := false,
                             state := .loading_intent }
    match resolved with
    | .ok intent =>
      let s := CheckoutState.choose_method intent (getInitialMethod c.config) none
      ({ c1 with state := s }, [.published .loading_intent, .published s])
    | .error err =>
      let pub := toPublicError err
      ({ c1 with state := .error pub none },
       [.published .loading_intent, .cbError pub, .published (.error pub none)])

/-- `close()` (lines 119-125): raise the stop flag, clear `isRunning`,
invoke `onClose`, publish `idle`. -/
def closeCtl (c : Ctl) : Ctl × List Emit :=
  ({ c with stopRequested := true, isRunning := false, state := .idle },
   [.cbClose, .published .idle])

/-- `selectMethod(method)` (lines 130-140): only in `choose_method`, only
when the target method is enabled; the spread keeps `intent` and `message`
and replaces only `selected`. -/
def selectMethod (c : Ctl) (method : PaymentMethod) : Ctl × List Emit :=
  match c.state with
  | .choose_method intent _ message =>
    if method = .wallet ∧ c.config.allowWallet = false then (c, [])
    else if method = .manual ∧ c.config.allowManual = false then (c, [])
    else
      ({ c with state := .choose_method intent method message },
       [.published (.choose_method intent method message)])
  | _ => (c, [])

/-- The wallet adapter environment of one `startWalletFlow` run: whether an
injected provider exists, and the outcome of each adapter call in program
order (`requestAccounts`, the first `getChainId`, `switchEthereumChain`,
the post-switch `getChainId`, `sendErc20Transfer`). -/
structure WalletEnv where
  provider : Bool
  accounts : Except ThrownValue (List String)
  chainId1 : Except ThrownValue Int
  switchRes : Except ThrownValue Unit
  chainId2 : Except ThrownValue Int
  sendRes : Except ThrownValue String

/-- The `Error` thrown when no injected provider exists (line 206-210):
an `Error` with `e.code = "wallet_not_found"`. -/
def walletNotFoundErr : ThrownValue :=
  ⟨some (.str "wallet_not_found"),
   some "No injected wallet found. Install a wallet extension or use manual payment.",
   none, true⟩

/-- The `Error` thrown when `requestAccounts` returns no account (218-220). -/
def walletNoAccountErr : ThrownValue :=
  ⟨some (.str "wallet_no_account"), some "No wallet account available.", none, true⟩

/-- The `Error` thrown when the chain still mismatches after the switch
(lines 232-236). -/
def walletWrongNetworkErr : ThrownValue :=
  ⟨some (.str "wallet_wrong_network"),
   some "Wallet did not switch to the correct network.", none, true⟩

/-- Prepend already-emitted effects to an operation's result. -/
def withPre (pre : List Emit) (r : Ctl × List Emit) : Ctl × List Emit :=
  (r.1, pre ++ r.2)

/-- The catch block of `startWalletFlow` (lines 256-277): normalize the
thrown value; when manual payment is allowed, re-enter `choose_method` with
`selected = manual` and the normalized message as banner, auto-advance to
`manual_instructions` and start polling; otherwise fire `onError` and enter
the terminal `error` state retaining the intent. -/
def handleWalletFailure (c : Ctl) (penv : PollEnv)
    (intent : ResolvedPaymentIntent) (e : ThrownValue) : Ctl × List Emit :=
  let pub := toPublicError e
  if c.config.allowManual then
    let c1 : Ctl := { c with state := .choose_method intent .manual (some pub.message) }
    let c2 : Ctl := { c1 with state := .manual_instructions intent }
    withPre [.published (.choose_method intent .manual (some pub.message)),
             .published (.manual_instructions intent)]
      (startPolling c2 penv intent)
  else
    ({ c with state := .error pub (some intent) },
     [.cbError pub, .published (.error pub (some intent))])

/-- Step 4 of the wallet flow (lines 240-255): publish `wallet_sending`,
submit the transfer, record the hash, publish `wallet_submitted`, then hand
off to the polling engine; a send failure goes to the catch block. -/
def walletSendPhase (c : Ctl) (env : WalletEnv) (penv : PollEnv)
    (intent : ResolvedPaymentIntent) (fromAddr : String) : Ctl × List Emit :=
  let c1 : Ctl := { c with state := .wallet_sending intent fromAddr }
  let pre : List Emit := [.published (.wallet_sending intent fromAddr)]
  match env.sendRes with
  | .error e => withPre pre (handleWalletFailure c1 penv intent e)
  | .ok txHash =>
    let c2 : Ctl := { c1 with lastTxHash := some txHash,
                              state := .wallet_submitted intent txHash }
    withPre (pre ++ [.published (.wallet_submitted intent txHash)])
      (startPolling c2 penv intent)

/-- `startWalletFlow` (lines 202-278): the linear sequence provider →
accounts → chain check (with optional switch and re-check) → send →
polling, every failure routed to the catch block. -/
def startWalletFlow (c : Ctl) (env : WalletEnv) (penv : PollEnv)
    (intent : ResolvedPaymentIntent) : Ctl × List Emit :=
  if env.provider = false then handleWalletFailure c penv intent walletNotFoundErr
  else
    let c1 : Ctl := { c with state := .wallet_connecting intent }
    let pre1 : List Emit := [.published (.wallet_connecting intent)]
    match env.accounts with
    | .error e => withPre pre1 (handleWalletFailure c1 penv intent e)
    | .ok accounts =>
      match accounts.head? with
      | none => withPre pre1 (handleWalletFailure c1 penv intent walletNoAccountErr)
      | some fromAddr =>
        match env.chainId1 with
        | .error e => withPre pre1 (handleWalletFailure c1 penv intent e)
        | .ok currentChainId =>
          if currentChainId ≠ intent.chain_id then
            let c2 : Ctl := { c1 with state := .wallet_switching_chain intent }
            let pre2 : List Emit := pre1 ++ [.published (.wallet_switching_chain intent)]
            match env.switchRes with
            | .error e => withPre pre2 (handleWalletFailure c2 penv intent e)
            | .ok _ =>
              match env.chainId2 with
              | .error e => withPre pre2 (handleWalletFailure c2 penv intent e)
              | .ok afterSwitch =>
                if afterSwitch ≠ intent.chain_id then
                  withPre pre2 (handleWalletFailure c2 penv intent walletWrongNetworkErr)
                else
                  withPre pre2 (walletSendPhase c2 env penv intent fromAddr)
          else
            withPre pre1 (walletSendPhase c1 env penv intent fromAddr)

/-- The thrown value, if any, that the try block of `startWalletFlow`
raises for a given wallet environment: `none` means steps 1-4 all succeed
and the flow reaches the polling hand-off. -/
def walletFlowThrown (env : WalletEnv) (intent : ResolvedPaymentIntent) :
    Option ThrownValue :=
  if env.provider = false then some walletNotFoundErr
  else
    match env.accounts with
    | .error e => some e
    | .ok accounts =>
      match accounts.head? with
      | none => some walletNoAccountErr
      | some _ =>
        match env.chainId1 with
        | .error e => some e
        | .ok currentChainId =>
          if currentChainId ≠ intent.chain_id then
            match env.switchRes with
            | .error e => some e
            | .ok _ =>
              match env.chainId2 with
              | .error e => some e
              | .ok afterSwitch =>
                if afterSwitch ≠ intent.chain_id then some walletWrongNetworkErr
                else
                  match env.sendRes with
                  | .error e => some e
                  | .ok _ => none
          else
            match env.sendRes with
            | .error e => some e
            | .ok _ => none

/-- `continue()` (lines 145-163): only from `choose_method`; reset the
recorded tx hash; manual enters `manual_instructions` and starts polling,
wallet runs the wallet flow. -/
def continueCtl (c : Ctl) (env : WalletEnv) (penv : PollEnv) : Ctl × List Emit :=
  match c.state with
  | .choose_method intent selected _ =>
    let c0 : Ctl := { c with lastTxHash := none }
    match selected with
    | .manual =>
      let c1 : Ctl := { c0 with state := .manual_instructions intent }
      withPre [.published (.manual_instructions intent)] (startPolling c1 penv intent)
    | .wallet => startWalletFlow c0 env penv intent
  | _ => (c, [])

/-- `keepWaiting()` (lines 168-178): only from `awaiting_confirmation`;
re-enter `waiting` with `pendingConfirmationsSince = Date.now()` and start
the polling engine again on the same intent. -/
def keepWaiting (c : Ctl) (now : Nat) (penv : PollEnv) : Ctl × List Emit :=
  match c.state with
  | .awaiting_confirmation intent =>
    let c1 : Ctl := { c with state := .waiting intent (some now) }
    withPre [.published (.waiting intent (some now))] (startPolling c1 penv intent)
  | _ => (c, [])

/-! ## Trace observations -/

/-- Count of `onAwaitingConfirmation` invocations in a trace. -/
def countCbAwaiting (es : List Emit) : Nat :=
  es.countP fun e => match e with | .cbAwaitingConfirmation _ => true | _ => false

/-- Count of `onClose` invocations in a trace. -/
def countCbClose (es : List Emit) : Nat :=
  es.countP fun e => match e with | .cbClose => true | _ => false

/-- Count of `onSuccess` invocations in a trace. -/
def countCbSuccess (es : List Emit) : Nat :=
  es.countP fun e => match e with | .cbSuccess _ _ _ _ => true | _ => false

/-- Count of `onError` invocations in a trace. -/
def countCbError (es : List Emit) : Nat :=
  es.countP fun e => match e with | .cbError _ => true | _ => false

/-- Count of state publications in a trace. -/
def countPublished (es : List Emit) : Nat :=
  es.countP fun e => match e with | .published _ => true | _ => false

/-- `true` when an effect is neither an `onError` call nor a publication of
the `error` state. -/
def isNonErrorEmit : Emit → Bool
  | .cbError _ => false
  | .published (.error _ _) => false
  | _ => true

/-- A trace that never surfaces an error: no `onError`, no `error` state. -/
def errorFreeTrace (es : List Emit) : Bool :=
  es.all isNonErrorEmit

/-- `true` for the state publications a wallet attempt makes before its
failing step throws (`wallet_connecting`, `wallet_switching_chain`,
`wallet_sending`). -/
def isWalletProgressEmit : Emit → Bool
  | .published (.wallet_connecting _) => true
  | .published (.wallet_switching_chain _) => true
  | .published (.wallet_sending _ _) => true
  | _ => false

/-! ## Concrete fixtures -/

/-- A sample intent in `pending_confirmations`. -/
def pendingIntent : ResolvedPaymentIntent :=
  ⟨"pi_1", .pending_confirmations, .testnet, .base, 8453, 1, 5000000, 6,
   "USDC", "0xToken", "0xMerchant", "2026-01-01T00:00:00Z", .sdk, []⟩

/-- The same intent still unpaid. -/
def reqIntent : ResolvedPaymentIntent :=
  { pendingIntent with status := .requires_payment }

/-- The same intent succeeded. -/
def succIntent : ResolvedPaymentIntent :=
  { pendingIntent with status := .succeeded }

/-- The polling environment of the escalation scenario: the resolver reports
`pending_confirmations` on every observation, nobody calls `close()`, and
the loop starts at epoch time 1 ms. -/
def c1Env : PollEnv :=
  ⟨1, fun _ => false, fun _ => .ok pendingIntent⟩

/-- The escalation scenario itself: a default controller (60 s threshold,
2.5 s interval, 10 min timeout) polling against `c1Env`. -/
def c1Run : Ctl × List Emit :=
  startPolling (mkController none none none) c1Env pendingIntent

/-- The polling environment of the quick-success scenario: `requires_payment`
for 3 observations, then `succeeded`. -/
def c6Env : PollEnv :=
  ⟨1, fun _ => false, fun n => .ok (if n < 3 then reqIntent else succIntent)⟩

/-- The quick-success scenario on a default controller. -/
def c6Run : Ctl × List Emit :=
  startPolling (mkController none none none) c6Env pendingIntent

/-! ## Lemmas about the polling loop -/

/-- If every observation before `m` is non-terminal and within the time
budget and observation `m` is terminal, the loop stops at `m` with
`timedOut = false` (given enough fuel). -/
theorem waitAux_first_terminal (trace : Nat → ResolvedPaymentIntent) (I T : Nat) :
    ∀ fuel n m, n ≤ m →
    (∀ k, n ≤ k → k < m →
      ¬((trace k).status = .succeeded ∨ (trace k).status = .expired)) →
    ((trace m).status = .succeeded ∨ (trace m).status = .expired) →
    (∀ k, n ≤ k → k < m → k * I ≤ T) →
    m - n < fuel →
    waitAux (fun k => .ok (trace k)) I T n fuel =
      some (.finished (trace m) false (m + 1)) := by
  intro fuel
  induction fuel with
  | zero => intro n m _ _ _ _ hf; omega
  | succ fuel ih =>
    intro n m hnm hnt hterm htime hf
    by_cases hEq : n = m
    · subst hEq
      simp [waitAux, hterm]
    · have hlt : n < m := lt_of_le_of_ne hnm hEq
      have h1 := hnt n le_rfl hlt
      have h2 : ¬(n * I > T) := not_lt.mpr (htime n le_rfl hlt)
      simp only [waitAux, h1, if_false, h2]
      exact ih (n + 1) m (by omega)
        (fun k hk hk2 => hnt k (by omega) hk2) hterm
        (fun k hk hk2 => htime k (by omega) hk2) (by omega)

/-- If every observation up to and including `m` is non-terminal, every
observation before `m` is within the time budget, and observation `m` is
past it, the loop stops at `m` with `timedOut = true` (given enough fuel). -/
theorem waitAux_timeout (trace : Nat → ResolvedPaymentIntent) (I T : Nat) :
    ∀ fuel n m, n ≤ m →
    (∀ k, n ≤ k → k ≤ m →
      ¬((trace k).status = .succeeded ∨ (trace k).status = .expired)) →
    (∀ k, n ≤ k → k < m → k * I ≤ T) →
    m * I > T →
    m - n < fuel →
    waitAux (fun k => .ok (trace k)) I T n fuel =
      some (.finished (trace m) true (m + 1)) := by
  intro fuel
  induction fuel with
  | zero => intro n m _ _ _ _ hf; omega
  | succ fuel ih =>
    intro n m hnm hnt htime hm hf
    by_cases hEq : n = m
    · subst hEq
      have h1 := hnt n le_rfl le_rfl
      simp only [waitAux, h1, if_false, hm, if_true]
    · have hlt : n < m := lt_of_le_of_ne hnm hEq
      have h1 := hnt n le_rfl (le_of_lt hlt)
      have h2 : ¬(n * I > T) := not_lt.mpr (htime n le_rfl hlt)
      simp only [waitAux, h1, if_false, h2]
      exact ih (n + 1) m (by omega)
        (fun k hk hk2 => hnt k (by omega) hk2)
        (fun k hk hk2 => htime k (by omega) hk2) hm (by omega)

/-- A loop over an infallible resolver never ends in the `threw` outcome. -/
theorem waitAux_ok_finished (resolve : Nat → Except ThrownValue ResolvedPaymentIntent)
    (I T : Nat) (hres : ∀ n, (resolve n).isOk = true) :
    ∀ fuel n out, waitAux resolve I T n fuel = some out →
    ∃ i t c, out = .finished i t c := by
  intro fuel
  induction fuel with
  | zero => intro n out h; simp [waitAux] at h
  | succ fuel ih =>
    intro n out h
    cases hr : resolve n with
    | error e =>
      have hok := hres n
      rw [hr] at hok
      exact Bool.noConfusion hok
    | ok intent =>
      simp only [waitAux, hr] at h
      split_ifs at h with h1 h2
      · exact ⟨intent, false, n + 1, (Option.some_inj.mp h).symm⟩
      · exact ⟨intent, true, n + 1, (Option.some_inj.mp h).symm⟩
      · exact ih (n + 1) out h

/-- Accumulator lemma: the reversed accumulator of `runUpdatesGo` is a
prefix of the final trace and does not influence the rest. -/
theorem runUpdatesGo_accRev (θ I S : Nat) (stop : Nat → Bool)
    (res : Nat → Except ThrownValue ResolvedPaymentIntent) :
    ∀ left n ps accRev,
    runUpdatesGo θ I S stop res n left ps accRev =
      ⟨(runUpdatesGo θ I S stop res n left ps []).pendingSince,
       accRev.reverse ++ (runUpdatesGo θ I S stop res n left ps []).emits⟩ := by
  intro left
  induction left with
  | zero => intro n ps accRev; simp [runUpdatesGo]
  | succ left ih =>
    intro n ps accRev
    cases hr : res n with
    | error e =>
      simp only [runUpdatesGo, hr]
      rw [ih (n + 1) ps accRev]
    | ok intent =>
      simp only [runUpdatesGo, hr]
      rw [ih (n + 1) (onUpdateStep θ I S stop ps n intent).1
            ((onUpdateStep θ I S stop ps n intent).2.reverse ++ accRev),
          ih (n + 1) (onUpdateStep θ I S stop ps n intent).1
            ((onUpdateStep θ I S stop ps n intent).2.reverse ++ [])]
      simp [List.reverse_append]

/-- Splitting a run of `onUpdate` invocations at an intermediate index. -/
theorem runUpdatesGo_split (θ I S : Nat) (stop : Nat → Bool)
    (res : Nat → Except ThrownValue ResolvedPaymentIntent) :
    ∀ a b n ps,
    runUpdatesGo θ I S stop res n (a + b) ps [] =
      ⟨(runUpdatesGo θ I S stop res (n + a) b
          (runUpdatesGo θ I S stop res n a ps []).pendingSince []).pendingSince,
       (runUpdatesGo θ I S stop res n a ps []).emits ++
       (runUpdatesGo θ I S stop res (n + a) b
          (runUpdatesGo θ I S stop res n a ps []).pendingSince []).emits⟩ := by
  intro a
  induction a with
  | zero => intro b n ps; simp [runUpdatesGo]
  | succ a ih =>
    intro b n ps
    have hab : a + 1 + b = (a + b) + 1 := by omega
    have hn : n + (a + 1) = n + 1 + a := by omega
    rw [hab, hn]
    cases hr : res n with
    | error e =>
      simp only [runUpdatesGo, hr]
      rw [ih b (n + 1) ps]
    | ok intent =>
      simp only [runUpdatesGo, hr]
      rw [runUpdatesGo_accRev θ I S stop res (a + b) (n + 1)
            (onUpdateStep θ I S stop ps n intent).1
            ((onUpdateStep θ I S stop ps n intent).2.reverse ++ []),
          runUpdatesGo_accRev θ I S stop res a (n + 1)
            (onUpdateStep θ I S stop ps n intent).1
            ((onUpdateStep θ I S stop ps n intent).2.reverse ++ [])]
      rw [ih b (n + 1) (onUpdateStep θ I S stop ps n intent).1]
      simp [List.append_assoc]

/-- Trace-count helpers. -/
theorem countCbAwaiting_append (a b : List Emit) :
    countCbAwaiting (a ++ b) = countCbAwaiting a + countCbAwaiting b := by
  simp [countCbAwaiting, List.countP_append]

/-- A published state never counts as an `onAwaitingConfirmation` call. -/
theorem countCbAwaiting_cons_published (s : CheckoutState) (b : List Emit) :
    countCbAwaiting (.published s :: b) = countCbAwaiting b := by
  simp [countCbAwaiting, List.countP_cons]

/-- An `onAwaitingConfirmation` call counts once. -/
theorem countCbAwaiting_cons_cb (i : String) (b : List Emit) :
    countCbAwaiting (.cbAwaitingConfirmation i :: b) = countCbAwaiting b + 1 := by
  simp [countCbAwaiting, List.countP_cons]

/-- Once the dwell threshold is reached (`θ ≤ n * I`) and `pendingSince` is
pinned at the loop's start time `S ≠ 0`, a resolver that keeps returning
`pending_confirmations` makes every remaining `onUpdate` invocation fire
`onAwaitingConfirmation` again: `left` invocations fire `left` times. -/
theorem runUpdatesGo_escalated_count (θ I S : Nat) (stop : Nat → Bool)
    (res : Nat → Except ThrownValue ResolvedPaymentIntent)
    (pi0 : ResolvedPaymentIntent)
    (hres : ∀ k, res k = .ok pi0) (hst : pi0.status = .pending_confirmations)
    (hstop : ∀ k, stop k = false) (hS : S ≠ 0) :
    ∀ left n, θ ≤ n * I →
    countCbAwaiting (runUpdatesGo θ I S stop res n left (some S) []).emits = left := by
  intro left
  induction left with
  | zero => intro n _; simp [runUpdatesGo, countCbAwaiting]
  | succ left ih =>
    intro n hθ
    have hstep : onUpdateStep θ I S stop (some S) n pi0 =
        (some S, [.cbAwaitingConfirmation pi0.id,
                  .published (.awaiting_confirmation pi0)]) := by
      have hfal : jsFalsyTime (some S) = false := by
        cases S with
        | zero => exact absurd rfl hS
        | succ s => simp [jsFalsyTime]
      have hsub : S + n * I - S = n * I := by omega
      simp [onUpdateStep, hstop n, hst, hfal, hsub, hθ]
    simp only [runUpdatesGo, hres n, hstep]
    rw [runUpdatesGo_accRev]
    have hθ2 : θ ≤ (n + 1) * I := le_trans hθ (Nat.mul_le_mul_right I (by omega))
    simp only [List.append_nil, List.reverse_reverse]
    rw [countCbAwaiting_append, ih (n + 1) hθ2]
    simp [countCbAwaiting]
    omega

/-- `startPolling` in the timeout case with a final `pending_confirmations`
status: the trace is the initial `waiting`, the `onUpdate` trace, and the
final escalation pair. -/
theorem startPolling_timeout_pending (c : Ctl) (penv : PollEnv)
    (i0 ifin : ResolvedPaymentIntent) (cnt : Nat)
    (hsr : c.stopRequested = false)
    (hwait : waitForFinalStatus penv.resolve c.pollIntervalMs c.pollTimeoutMs =
      some (.finished ifin true cnt))
    (hstop : penv.stopAt cnt = false)
    (hpend : ifin.status = .pending_confirmations) :
    (startPolling c penv i0).2 =
      .published (.waiting i0 none) ::
      ((runUpdates c.awaitingThresholdMs c.pollIntervalMs penv.startTime
          penv.stopAt penv.resolve cnt).emits ++
       [.cbAwaitingConfirmation ifin.id,
        .published (.awaiting_confirmation ifin)]) := by
  have h1 : ¬(ifin.status = PaymentIntentStatus.succeeded) := by simp [hpend]
  have h2 : ¬(ifin.status = PaymentIntentStatus.expired) := by simp [hpend]
  simp only [startPolling, hsr, Bool.false_eq_true, if_false, hwait,
    PollOutcome.count, hstop, h1, h2, if_true, hpend, if_false]
  rw [if_neg (by decide : ¬(PaymentIntentStatus.pending_confirmations = PaymentIntentStatus.succeeded))]
  rw [if_neg (by decide : ¬(PaymentIntentStatus.pending_confirmations = PaymentIntentStatus.expired))]
  simp [List.append_assoc]

/-- The timeout outcome of the escalation scenario: 242 observations, all
pending, the 242nd (index 241) past the 10-minute budget. -/
theorem c1_wait_eq :
    waitForFinalStatus c1Env.resolve 2500 600000 =
      some (.finished pendingIntent true 242) := by
  have h := waitAux_timeout (fun _ => pendingIntent) 2500 600000
    (pollFuel 2500 600000) 0 241 (by omega)
    (by intro k _ _; simp [pendingIntent])
    (by intro k _ hk; calc k * 2500 ≤ 240 * 2500 := Nat.mul_le_mul_right 2500 (by omega)
          _ ≤ 600000 := by norm_num)
    (by norm_num)
    (by norm_num [pollFuel])
  exact h

/-- The first 24 `onUpdate` invocations of the escalation scenario: every
one publishes `waiting` with `pendingSince = 1`, none escalates. -/
theorem c1_first24 :
    runUpdatesGo 60000 2500 1 c1Env.stopAt c1Env.resolve 0 24 none [] =
      ⟨some 1, List.replicate 24 (.published (.waiting pendingIntent (some 1)))⟩ := by
  decide

/-- One successful observation unfolds a run of `onUpdate` invocations by
one step. -/
theorem runUpdatesGo_succ_ok (θ I S : Nat) (stop : Nat → Bool)
    (res : Nat → Except ThrownValue ResolvedPaymentIntent)
    (n left : Nat) (ps : Option Nat) (intent : ResolvedPaymentIntent)
    (hr : res n = .ok intent) :
    runUpdatesGo θ I S stop res n (left + 1) ps [] =
      ⟨(runUpdatesGo θ I S stop res (n + 1) left
          (onUpdateStep θ I S stop ps n intent).1 []).pendingSince,
       (onUpdateStep θ I S stop ps n intent).2 ++
       (runUpdatesGo θ I S stop res (n + 1) left
          (onUpdateStep θ I S stop ps n intent).1 []).emits⟩ := by
  simp only [runUpdatesGo, hr]
  rw [runUpdatesGo_accRev]
  simp

/-- The 25th `onUpdate` invocation of the escalation scenario is the first
escalation: from observation 24 on, the trace opens with the
`onAwaitingConfirmation` call and the `awaiting_confirmation` publication. -/
theorem c1_from24 :
    runUpdatesGo 60000 2500 1 c1Env.stopAt c1Env.resolve 24 218 (some 1) [] =
      ⟨(runUpdatesGo 60000 2500 1 c1Env.stopAt c1Env.resolve 25 217 (some 1) []).pendingSince,
       .cbAwaitingConfirmation "pi_1" ::
       .published (.awaiting_confirmation pendingIntent) ::
       (runUpdatesGo 60000 2500 1 c1Env.stopAt c1Env.resolve 25 217 (some 1) []).emits⟩ := by
  have hstep : onUpdateStep 60000 2500 1 c1Env.stopAt (some 1) 24 pendingIntent =
      (some 1, [.cbAwaitingConfirmation "pi_1",
                .published (.awaiting_confirmation pendingIntent)]) := by decide
  have hr : c1Env.resolve 24 = .ok pendingIntent := rfl
  rw [show (218 : Nat) = 217 + 1 from rfl,
      runUpdatesGo_succ_ok 60000 2500 1 c1Env.stopAt c1Env.resolve 24 217 (some 1)
        pendingIntent hr, hstep]
  simp only [List.cons_append, List.nil_append]

/-- The full effect trace of the escalation scenario: the initial `waiting`,
24 quiet polls, then an escalation pair on every poll from the 25th on, and
a final escalation pair when the 10-minute budget runs out. -/
theorem c1_trace_eq :
    c1Run.2 =
      .published (.waiting pendingIntent none) ::
      ((List.replicate 24 (.published (.waiting pendingIntent (some 1))) ++
        (.cbAwaitingConfirmation "pi_1" ::
         .published (.awaiting_confirmation pendingIntent) ::
         (runUpdatesGo 60000 2500 1 c1Env.stopAt c1Env.resolve 25 217 (some 1) []).emits)) ++
       [.cbAwaitingConfirmation "pi_1",
        .published (.awaiting_confirmation pendingIntent)]) := by
  have h := startPolling_timeout_pending (mkController none none none) c1Env
    pendingIntent pendingIntent 242 rfl c1_wait_eq rfl rfl
  rw [show c1Run.2 = (startPolling (mkController none none none) c1Env pendingIntent).2 from rfl,
      h]
  have h242 : runUpdates 60000 2500 1 c1Env.stopAt c1Env.resolve 242 =
      runUpdatesGo 60000 2500 1 c1Env.stopAt c1Env.resolve 0 242 none [] := rfl
  have hsplit := runUpdatesGo_split 60000 2500 1 c1Env.stopAt c1Env.resolve 24 218 0 none
  show _ :: ((runUpdates 60000 2500 1 c1Env.stopAt c1Env.resolve 242).emits ++ _) = _
  rw [h242, show (242 : Nat) = 24 + 218 from rfl, hsplit, c1_first24]
  rw [show (0 + 24 : Nat) = 24 from rfl]
  rw [c1_from24]
  rfl

/-- Total number of `onAwaitingConfirmation` invocations in the escalation
scenario: 1 on the 25th poll, 217 more on the later polls, 1 at timeout. -/
theorem c1_count_eq : countCbAwaiting c1Run.2 = 219 := by
  have h217 : countCbAwaiting
      (runUpdatesGo 60000 2500 1 c1Env.stopAt c1Env.resolve 25 217 (some 1) []).emits = 217 := by
    apply runUpdatesGo_escalated_count 60000 2500 1 c1Env.stopAt c1Env.resolve pendingIntent
      (fun k => rfl) rfl (fun k => rfl) (by omega) 217 25
    norm_num
  have hrep : countCbAwaiting
      (List.replicate 24 (Emit.published (CheckoutState.waiting pendingIntent (some 1)))) = 0 := by
    decide
  rw [c1_trace_eq, countCbAwaiting_cons_published, countCbAwaiting_append,
    countCbAwaiting_append, hrep, countCbAwaiting_cons_cb,
    countCbAwaiting_cons_published, h217]
  decide

/-! ## Claim C1 -/

/-- C1 counterexample: with the resolver returning `pending_confirmations`
on every observation and the default 60 s threshold / 2.5 s interval /
10 min timeout, `onAwaitingConfirmation` does NOT fire exactly once in the
polling run: it fires 219 times (once on the 25th poll, once on every later
poll, and once more at the timeout), because the escalation branch of
`onUpdate` re-fires on every poll whose dwell is past the threshold and
nothing stops the loop when `awaiting_confirmation` is entered. -/
theorem C1_counterexample : countCbAwaiting c1Run.2 ≠ 1 := by
  rw [c1_count_eq]
  decide

/-- C1 (amended): in the constant-`pending_confirmations` run with the
default 60 s threshold and 2.5 s interval, the first
`onAwaitingConfirmation` fires on the 25th poll and not earlier — the trace
prefix covering the initial `waiting` publication and the first 24 polls
(25 effects) contains no escalation, and effect index 25, the first effect
of the 25th poll, is the `onAwaitingConfirmation` call — but the callback
then re-fires on every subsequent poll and once more at the total timeout,
219 times in all over the default 10-minute run, not exactly once. -/
theorem C1_theorem :
    countCbAwaiting (c1Run.2.take 25) = 0
    ∧ c1Run.2[25]? = some (.cbAwaitingConfirmation "pi_1")
    ∧ countCbAwaiting c1Run.2 = 219 := by
  refine ⟨?_, ?_, c1_count_eq⟩
  · have htake : ((List.replicate 24 (Emit.published (CheckoutState.waiting pendingIntent (some 1))) ++
        (Emit.cbAwaitingConfirmation "pi_1" ::
         Emit.published (CheckoutState.awaiting_confirmation pendingIntent) ::
         (runUpdatesGo 60000 2500 1 c1Env.stopAt c1Env.resolve 25 217 (some 1) []).emits)) ++
       [Emit.cbAwaitingConfirmation "pi_1",
        Emit.published (CheckoutState.awaiting_confirmation pendingIntent)]).take 24 =
        List.replicate 24 (Emit.published (CheckoutState.waiting pendingIntent (some 1))) := by
      rw [List.append_assoc]
      rw [show (24 : Nat) = (List.replicate 24 (Emit.published
          (CheckoutState.waiting pendingIntent (some 1)))).length by simp]
      exact List.take_left _ _
    rw [c1_trace_eq, show (25 : Nat) = 24 + 1 from rfl, List.take_succ_cons, htake]
    decide
  · rw [c1_trace_eq, show (25 : Nat) = 24 + 1 from rfl, List.getElem?_cons_succ,
      List.append_assoc]
    rw [List.getElem?_append_right (by simp)]
    simp

/-! ## Claim C6 -/

/-- C6: the polling loop stops at the first observation whose status is
`succeeded` or `expired`, returning that intent with `timedOut = false`
(stated for any trace that reaches its first terminal status within the
time budget), and in the concrete scenario — `requires_payment` for 3
observations, then `succeeded` — the loop ends on the 4th observation with
`timedOut = false` and the controller fires `onSuccess` exactly once. -/
theorem C6_theorem :
    (∀ (trace : Nat → ResolvedPaymentIntent) (I T m : Nat),
      0 < I →
      (∀ k, k < m → ¬((trace k).status = .succeeded ∨ (trace k).status = .expired)) →
      ((trace m).status = .succeeded ∨ (trace m).status = .expired) →
      (∀ k, k < m → k * I ≤ T) →
      waitForFinalStatus (fun k => .ok (trace k)) I T =
        some (.finished (trace m) false (m + 1)))
    ∧ waitForFinalStatus c6Env.resolve 2500 600000 =
        some (.finished succIntent false 4)
    ∧ countCbSuccess c6Run.2 = 1 := by
  refine ⟨?_, by decide, by decide⟩
  intro trace I T m hI hnt hterm htime
  have hfuel : m < pollFuel I T := by
    rcases Nat.eq_zero_or_pos m with hm | hm
    · simp only [hm, pollFuel]
      exact Nat.lt_of_lt_of_le (by norm_num) (Nat.le_add_left 2 _)
    · have h1 : (m - 1) * I ≤ T := htime (m - 1) (by omega)
      have h2 : m - 1 ≤ T / I := (Nat.le_div_iff_mul_le hI).mpr h1
      simp only [pollFuel]
      calc m = (m - 1) + 1 := by omega
        _ ≤ T / I + 1 := Nat.add_le_add_right h2 1
        _ < T / I + 2 := Nat.lt_succ_self _
  exact waitAux_first_terminal trace I T (pollFuel I T) 0 m (by omega)
    (fun k _ hk => hnt k hk) hterm (fun k _ hk => htime k hk) (by omega)

/-- C6 witness: the general first-terminal statement applied to the
concrete 3-unpaid-then-succeeded trace. -/
theorem C6_witness :
    waitForFinalStatus
      (fun k => .ok (if k < 3 then reqIntent else succIntent)) 2500 600000 =
      some (.finished succIntent false 4) := by
  have h := C6_theorem.1 (fun k => if k < 3 then reqIntent else succIntent)
    2500 600000 3 (by decide)
    (by decide)
    (by decide)
    (by decide)
  simpa using h

/-! ## Claim C2 -/

/-- A structured API error (string `code`, boolean `recoverable`) whose
`recoverable` flag is `false`, as `resolveIntent` would throw it. -/
def structuredNonRecoverable : ThrownValue :=
  ⟨some (.str "intent_not_found"), some "Payment intent not found.", some false, true⟩

/-- C2 counterexample: a structured error with `recoverable = false` is NOT
passed through unchanged — `toPublicError` returns it with
`recoverable = true`, because the string-code branch (which always sets
`recoverable := true`) runs before the structured branch and captures every
value whose `code` is a string. -/
theorem C2_counterexample :
    structuredNonRecoverable.recoverable = some false ∧
    (toPublicError structuredNonRecoverable).recoverable = true := by
  exact ⟨rfl, rfl⟩

/-- C2 (amended): every thrown value in the structured shape is classified
by the string-code branch, never by the numeric wallet-code branches and
never by the (unreachable) structured branch: the `code` and a non-blank
`message` pass through unchanged, but `recoverable` is always set to
`true`, whatever the structured value carried — so only structured errors
with `recoverable = true` round-trip unchanged. -/
theorem C2_theorem (e : ThrownValue) (c : String) (r : Bool) (m : String)
    (hc : e.code = some (.str c)) (hr : e.recoverable = some r)
    (hm : e.message = some m) (hmm : 0 < (jsTrim m).length) :
    toPublicError e = ⟨c, m, true⟩ := by
  simp [toPublicError, hc, messageOr, hm, hmm]

/-- C2 witness: a structured error with `recoverable = true` and a
non-blank message comes back unchanged through the string-code branch. -/
theorem C2_witness :
    toPublicError ⟨some (.str "rate_limited"), some "Too many requests.", some true, true⟩ =
      ⟨"rate_limited", "Too many requests.", true⟩ :=
  C2_theorem _ "rate_limited" true "Too many requests." rfl rfl rfl (by decide)

/-! ## Claim C4 -/

/-- When the stop flag is raised at every checkpoint, no `onUpdate`
invocation emits anything or touches `pendingSince`. -/
theorem runUpdatesGo_stopped (θ I S : Nat) (stop : Nat → Bool)
    (res : Nat → Except ThrownValue ResolvedPaymentIntent)
    (hstop : ∀ k, stop k = true) :
    ∀ left n ps accRev,
    runUpdatesGo θ I S stop res n left ps accRev = ⟨ps, accRev.reverse⟩ := by
  intro left
  induction left with
  | zero => intro n ps accRev; simp [runUpdatesGo]
  | succ left ih =>
    intro n ps accRev
    cases hr : res n with
    | error e =>
      simp only [runUpdatesGo, hr]
      exact ih (n + 1) ps accRev
    | ok intent =>
      simp only [runUpdatesGo, hr, onUpdateStep, hstop n, if_true]
      simpa using ih (n + 1) ps accRev

/-- When the stop flag is raised at every checkpoint from `k` on, no
`onUpdate` invocation at index `k` or later emits anything or touches
`pendingSince`. -/
theorem runUpdatesGo_stopped_from (θ I S : Nat) (stop : Nat → Bool)
    (res : Nat → Except ThrownValue ResolvedPaymentIntent) (k : Nat)
    (hstop : ∀ n2, k ≤ n2 → stop n2 = true) :
    ∀ left n ps accRev, k ≤ n →
    runUpdatesGo θ I S stop res n left ps accRev = ⟨ps, accRev.reverse⟩ := by
  intro left
  induction left with
  | zero => intro n ps accRev _; simp [runUpdatesGo]
  | succ left ih =>
    intro n ps accRev hkn
    cases hr : res n with
    | error e =>
      simp only [runUpdatesGo, hr]
      exact ih (n + 1) ps accRev (by omega)
    | ok intent =>
      simp only [runUpdatesGo, hr, onUpdateStep, hstop n hkn, if_true]
      simpa using ih (n + 1) ps accRev (by omega)

/-- A run of `cnt` `onUpdate` invocations whose stop flag is raised from
checkpoint `k ≤ cnt` on behaves exactly like the run truncated at `k`:
the later invocations contribute nothing. -/
theorem runUpdates_stop_after (θ I S : Nat) (stop : Nat → Bool)
    (res : Nat → Except ThrownValue ResolvedPaymentIntent) (k cnt : Nat)
    (hstop : ∀ n2, k ≤ n2 → stop n2 = true) (hk : k ≤ cnt) :
    runUpdates θ I S stop res cnt = runUpdates θ I S stop res k := by
  have hsplit := runUpdatesGo_split θ I S stop res k (cnt - k) 0 none
  rw [runUpdates, runUpdates, show cnt = k + (cnt - k) from by omega, hsplit]
  rw [runUpdatesGo_stopped_from θ I S stop res k hstop (cnt - k) (0 + k)
    (runUpdatesGo θ I S stop res 0 k none []).pendingSince [] (by omega)]
  simp

/-- `startPolling` when the stop flag is raised from checkpoint `k` on
while the loop is still in flight (`k ≤ out.count`): the whole trace is the
initial `waiting` publication plus the emissions of the first `k`
`onUpdate` checkpoints — nothing is published from checkpoint `k` on, and
the final block (success, expired, escalation or catch) emits nothing. -/
theorem startPolling_close_midrun (c : Ctl) (penv : PollEnv)
    (intent : ResolvedPaymentIntent) (k : Nat) (out : PollOutcome)
    (hk : ∀ n, k ≤ n → penv.stopAt n = true)
    (hsr : c.stopRequested = false)
    (hw : waitForFinalStatus penv.resolve c.pollIntervalMs c.pollTimeoutMs = some out)
    (hcnt : k ≤ out.count) :
    (startPolling c penv intent).2 =
      .published (.waiting intent none) ::
      (runUpdates c.awaitingThresholdMs c.pollIntervalMs penv.startTime
        penv.stopAt penv.resolve k).emits := by
  have hstopcnt : penv.stopAt out.count = true := hk out.count hcnt
  have hcut := runUpdates_stop_after c.awaitingThresholdMs c.pollIntervalMs
    penv.startTime penv.stopAt penv.resolve k out.count hk hcnt
  simp only [startPolling, hsr, Bool.false_eq_true, if_false, hw]
  cases out with
  | finished i t cnt =>
    simp only [PollOutcome.count] at hstopcnt hcut
    dsimp only
    rw [hstopcnt]
    simp [PollOutcome.count, hcut]
  | threw e cnt =>
    simp only [PollOutcome.count] at hstopcnt hcut
    dsimp only
    rw [hstopcnt]
    simp [PollOutcome.count, hcut]

/-- Two consecutive `close()` calls on a fresh controller, with the two
effect traces concatenated. -/
def c4Run : Ctl × List Emit :=
  ((closeCtl (closeCtl (mkController none none none)).1).1,
   (closeCtl (mkController none none none)).2 ++
   (closeCtl (closeCtl (mkController none none none)).1).2)

/-- C4 counterexample: repeated `close()` calls do not produce exactly one
`onClose` invocation — each call invokes the callback again, so two calls
produce two invocations. -/
theorem C4_counterexample :
    countCbClose c4Run.2 = 2 ∧ countCbClose c4Run.2 ≠ 1 := by
  exact ⟨rfl, by decide⟩

/-- C4 (amended): each single `close()` call, from any state, forces the
state to `idle`, raises the stop flag and invokes `onClose` exactly once
for that call (so n calls invoke it n times); once the stop flag is raised,
a subsequent polling run publishes nothing at all; a polling run whose
every checkpoint sees the flag raised (close before the first observation
resolves) publishes nothing beyond the initial `waiting` publication; and
a close arriving at checkpoint `k` of an in-flight run stops every further
publication — the whole trace is the initial `waiting` plus the emissions
of the first `k` checkpoints, with nothing from checkpoint `k` on and no
final-block emission. -/
theorem C4_theorem (c : Ctl) :
    ((closeCtl c).1.state = .idle ∧ countCbClose (closeCtl c).2 = 1 ∧
      (closeCtl c).1.stopRequested = true ∧ (closeCtl c).2 = [.cbClose, .published .idle])
    ∧ (∀ penv intent, (startPolling (closeCtl c).1 penv intent) = ((closeCtl c).1, []))
    ∧ (∀ penv intent, (∀ n, penv.stopAt n = true) → c.stopRequested = false →
        (startPolling c penv intent).2 = [.published (.waiting intent none)])
    ∧ (∀ penv intent k out, (∀ n, k ≤ n → penv.stopAt n = true) →
        c.stopRequested = false →
        waitForFinalStatus penv.resolve c.pollIntervalMs c.pollTimeoutMs = some out →
        k ≤ out.count →
        (startPolling c penv intent).2 =
          .published (.waiting intent none) ::
          (runUpdates c.awaitingThresholdMs c.pollIntervalMs penv.startTime
            penv.stopAt penv.resolve k).emits) := by
  refine ⟨⟨rfl, rfl, rfl, rfl⟩, fun penv intent => by simp [startPolling, closeCtl], ?_,
    fun penv intent k out hk hsr hw hcnt =>
      startPolling_close_midrun c penv intent k out hk hsr hw hcnt⟩
  intro penv intent hstop hsr
  simp only [startPolling, hsr, Bool.false_eq_true, if_false]
  cases hw : waitForFinalStatus penv.resolve c.pollIntervalMs c.pollTimeoutMs with
  | none => simp
  | some out =>
    cases out with
    | finished intent2 timedOut cnt =>
      simp [runUpdates, runUpdatesGo_stopped _ _ _ _ _ hstop, hstop cnt,
        PollOutcome.count]
    | threw e cnt =>
      simp [runUpdates, runUpdatesGo_stopped _ _ _ _ _ hstop, hstop cnt,
        PollOutcome.count]

/-- The constant-pending polling environment in which `close()` arrives at
checkpoint 1: the stop flag is down for the first `onUpdate` and up from
then on. -/
def closeAtOneEnv : PollEnv :=
  ⟨1, fun n => decide (1 ≤ n), c1Env.resolve⟩

/-- C4 witness: the amended statement applied to a fresh controller —
polling after `close()` emits nothing, and a close arriving at checkpoint 1
of the constant-pending run leaves exactly two publications (the initial
`waiting` and the single pre-close `onUpdate`), nothing after. -/
theorem C4_witness :
    (closeCtl (mkController none none none)).1.state = .idle ∧
    startPolling (closeCtl (mkController none none none)).1 c1Env pendingIntent =
      ((closeCtl (mkController none none none)).1, []) ∧
    (startPolling (mkController none none none) closeAtOneEnv pendingIntent).2 =
      [.published (.waiting pendingIntent none),
       .published (.waiting pendingIntent (some 1))] := by
  refine ⟨(C4_theorem (mkController none none none)).1.1,
    (C4_theorem (mkController none none none)).2.1 c1Env pendingIntent, ?_⟩
  rw [(C4_theorem (mkController none none none)).2.2.2 closeAtOneEnv pendingIntent 1
    (.finished pendingIntent true 242) (by intro n hn; simpa [closeAtOneEnv] using hn)
    rfl c1_wait_eq (by decide)]
  decide

/-! ## Claim C8 -/

/-- C8: `selectMethod` is a no-op outside `choose_method` and for a
config-disabled method; when it applies it changes only the `selected`
field — the same `intent` and banner `message` are kept, the rest of the
controller (flags, constants, tx hash) is untouched — publishing exactly
the one toggled state; and the wallet-then-manual round trip ends in
`choose_method` with `selected = manual`, publishing exactly the two
toggled states. -/
theorem C8_theorem (c : Ctl) (intent : ResolvedPaymentIntent)
    (sel : PaymentMethod) (msg : Option String) :
    ((∀ i s m2, c.state ≠ .choose_method i s m2) →
      ∀ m, selectMethod c m = (c, []))
    ∧ (c.state = .choose_method intent sel msg →
        (c.config.allowWallet = false → selectMethod c .wallet = (c, []))
        ∧ (c.config.allowManual = false → selectMethod c .manual = (c, []))
        ∧ (c.config.allowWallet = true →
            selectMethod c .wallet =
              ({ c with state := .choose_method intent .wallet msg },
               [.published (.choose_method intent .wallet msg)]))
        ∧ (c.config.allowManual = true →
            selectMethod c .manual =
              ({ c with state := .choose_method intent .manual msg },
               [.published (.choose_method intent .manual msg)])))
    ∧ (c.state = .choose_method intent sel msg →
        c.config.allowWallet = true → c.config.allowManual = true →
        (selectMethod (selectMethod c .wallet).1 .manual).1 =
          { c with state := .choose_method intent .manual msg }
        ∧ (selectMethod c .wallet).2 ++ (selectMethod (selectMethod c .wallet).1 .manual).2 =
            [.published (.choose_method intent .wallet msg),
             .published (.choose_method intent .manual msg)]) := by
  refine ⟨?_, ?_, ?_⟩
  · intro hns m
    cases hs : c.state <;> simp [selectMethod, hs]
    exact absurd hs (hns _ _ _)
  · intro hs
    refine ⟨?_, ?_, ?_, ?_⟩
    · intro hw; simp [selectMethod, hs, hw]
    · intro hm; simp [selectMethod, hs, hm]
    · intro hw; simp [selectMethod, hs, hw]
    · intro hm; simp [selectMethod, hs, hm]
  · intro hs hw hm
    constructor <;> simp [selectMethod, hs, hw, hm]

/-- C8 witness: the round trip on a fresh default controller placed in
`choose_method`. -/
theorem C8_witness :
    (selectMethod (selectMethod
        { mkController none none none with
            state := .choose_method pendingIntent .wallet none } .wallet).1 .manual).1 =
      { mkController none none none with
          state := .choose_method pendingIntent .manual none } :=
  ((C8_theorem { mkController none none none with
      state := .choose_method pendingIntent .wallet none }
    pendingIntent .wallet none).2.2 rfl rfl rfl).1

/-! ## Claim C9 -/

/-- A polling run that was not stopped always opens its trace with the
`waiting(intent, none)` publication. -/
theorem startPolling_head (c : Ctl) (penv : PollEnv)
    (intent : ResolvedPaymentIntent) (hsr : c.stopRequested = false) :
    ∃ rest, (startPolling c penv intent).2 =
      .published (.waiting intent none) :: rest := by
  simp only [startPolling, hsr, Bool.false_eq_true, if_false]
  repeat' first
    | exact ⟨_, rfl⟩
    | split

/-- C9: `keepWaiting()` is a no-op in every state other than
`awaiting_confirmation`; from `awaiting_confirmation` it publishes
`waiting` with `pendingConfirmationsSince` reset to the current time and
then runs the polling engine again on the same intent (whose own first
publication, when the stop flag is down, is the fresh `waiting` state). -/
theorem C9_theorem (c : Ctl) (now : Nat) (penv : PollEnv) :
    ((∀ i, c.state ≠ .awaiting_confirmation i) → keepWaiting c now penv = (c, []))
    ∧ (∀ intent, c.state = .awaiting_confirmation intent →
        keepWaiting c now penv =
          withPre [.published (.waiting intent (some now))]
            (startPolling { c with state := .waiting intent (some now) } penv intent)
        ∧ (keepWaiting c now penv).2.head? =
            some (.published (.waiting intent (some now)))
        ∧ (c.stopRequested = false →
            (keepWaiting c now penv).2.take 2 =
              [.published (.waiting intent (some now)),
               .published (.waiting intent none)])) := by
  constructor
  · intro hns
    cases hs : c.state <;> simp [keepWaiting, hs]
    exact absurd hs (hns _)
  · intro intent hs
    have he : keepWaiting c now penv =
        withPre [.published (.waiting intent (some now))]
          (startPolling { c with state := .waiting intent (some now) } penv intent) := by
      simp [keepWaiting, hs]
    refine ⟨he, ?_, ?_⟩
    · rw [he]; rfl
    · intro hsr
      obtain ⟨rest, hrest⟩ := startPolling_head
        { c with state := .waiting intent (some now) } penv intent hsr
      rw [he]
      simp only [withPre, hrest]
      rfl

/-- C9 witness: `keepWaiting` from `awaiting_confirmation` on a default
controller re-publishes `waiting` with the fresh timestamp first. -/
theorem C9_witness :
    (keepWaiting
      { mkController none none none with state := .awaiting_confirmation pendingIntent }
      777 c6Env).2.head? =
      some (.published (.waiting pendingIntent (some 777))) :=
  ((C9_theorem { mkController none none none with
      state := .awaiting_confirmation pendingIntent } 777 c6Env).2
    pendingIntent rfl).2.1

/-! ## Claim C10 -/

/-- C10: once `open()` ran on an instance the `isRunning` flag is up —
also when the run ended in the `error` state — so every further `open()`
is a complete no-op (same controller, no emission) until `close()` clears
the flag. -/
theorem C10_theorem (c : Ctl) (o1 o2 : Except ThrownValue ResolvedPaymentIntent) :
    (c.isRunning = true → openCtl c o1 = (c, []))
    ∧ (openCtl c o1).1.isRunning = true
    ∧ openCtl (openCtl c o1).1 o2 = ((openCtl c o1).1, [])
    ∧ (closeCtl c).1.isRunning = false := by
  have hnoop : ∀ (x : Ctl) (o : Except ThrownValue ResolvedPaymentIntent),
      x.isRunning = true → openCtl x o = (x, []) := by
    intro x o hx
    simp [openCtl, hx]
  have h2 : (openCtl c o1).1.isRunning = true := by
    by_cases hr : c.isRunning = true
    · simp [openCtl, hr]
    · cases o1 <;> simp [openCtl, hr]
  exact ⟨hnoop c o1, h2, hnoop _ o2 h2, by simp [closeCtl]⟩

/-- C10 witness: after an `open()` that failed (resolver threw, terminal
`error` state), a second `open()` is still a no-op. -/
theorem C10_witness :
    openCtl (openCtl (mkController none none none) (.error structuredNonRecoverable)).1
        (.ok pendingIntent) =
      ((openCtl (mkController none none none) (.error structuredNonRecoverable)).1, []) :=
  (C10_theorem (mkController none none none) (.error structuredNonRecoverable)
    (.ok pendingIntent)).2.2.1

/-! ## Claims C5 and C7: the resolver -/

/-- The 12 required fields that `normalizeResolvedIntent` does NOT default
(everything but `lane` and `metadata`). -/
def requiredCorePresent (p : IntentFields) : Bool :=
  p.id.isSome && p.status.isSome && p.mode.isSome && p.chain.isSome &&
  p.chain_id.isSome && p.confirmations_required.isSome &&
  p.amount_units.isSome && p.decimals.isSome && p.token_symbol.isSome &&
  p.token_address.isSome && p.expected_wallet.isSome && p.expires_at.isSome

/-- Every error of the required-key loop is an `invalid_response`. -/
theorem checkRequired_error_shape (p : IntentFields) (e : PublicError)
    (h : checkRequired p = .error e) : ∃ k, e = missingFieldError k := by
  unfold checkRequired at h
  repeat' split at h
  all_goals first
    | (injection h with h; exact ⟨_, h.symm⟩)
    | cases h

/-- The required-key loop succeeds exactly when every field is present. -/
theorem checkRequired_ok_iff (p : IntentFields) :
    (∃ i, checkRequired p = .ok i) ↔
      (p.id.isSome = true ∧ p.status.isSome = true ∧ p.mode.isSome = true ∧
       p.chain.isSome = true ∧ p.chain_id.isSome = true ∧
       p.confirmations_required.isSome = true ∧ p.amount_units.isSome = true ∧
       p.decimals.isSome = true ∧ p.token_symbol.isSome = true ∧
       p.token_address.isSome = true ∧ p.expected_wallet.isSome = true ∧
       p.expires_at.isSome = true ∧ p.lane.isSome = true ∧
       p.metadata.isSome = true) := by
  unfold checkRequired
  repeat' split
  all_goals simp_all

/-- A successful required-key check copies every field from the normalized
record: nothing is substituted or defaulted at this boundary. -/
theorem checkRequired_ok_fields (p : IntentFields) (i : ResolvedPaymentIntent)
    (h : checkRequired p = .ok i) :
    p.id = some i.id ∧ p.status = some i.status ∧ p.mode = some i.mode ∧
    p.chain = some i.chain ∧ p.chain_id = some i.chain_id ∧
    p.confirmations_required = some i.confirmations_required ∧
    p.amount_units = some i.amount_units ∧ p.decimals = some i.decimals ∧
    p.token_symbol = some i.token_symbol ∧
    p.token_address = some i.token_address ∧
    p.expected_wallet = some i.expected_wallet ∧
    p.expires_at = some i.expires_at ∧ p.lane = some i.lane ∧
    p.metadata = some i.metadata := by
  unfold checkRequired at h
  repeat' split at h
  all_goals first
    | (injection h with h; subst h; simp_all)
    | cases h

/-- A 200 response goes straight to normalization and the required check. -/
theorem resolveIntent_200 (b : Option RawIntentBody) :
    resolveIntent (.response 200 b) = checkRequired (normalizeResolvedIntent b) := by
  simp [resolveIntent, statusOk]

/-- A resolve body carrying all 12 non-defaulted fields but neither `lane`
nor `metadata`. -/
def c5Body : RawIntentBody :=
  ⟨some "pi_1", some .requires_payment, some .testnet, some .base, some 8453,
   none, some 1, none, some 5000000, none, some 6, some "USDC", none,
   some "0xT", none, some "0xM", none, some "2026-01-01T00:00:00Z", none,
   none, none⟩

/-- C5 counterexample: a success response missing both `lane` and
`metadata` does NOT fail with `invalid_response` — `resolveIntent` returns
an intent with those two fields silently defaulted (`lane = "sdk"`,
`metadata = {}`), because `normalizeResolvedIntent` applies defensive
defaults for exactly these two keys before the required-field loop runs. -/
theorem C5_counterexample :
    c5Body.lane = none ∧ c5Body.metadata = none ∧
    resolveIntent (.response 200 (some c5Body)) =
      .ok ⟨"pi_1", .requires_payment, .testnet, .base, 8453, 1, 5000000, 6,
           "USDC", "0xT", "0xM", "2026-01-01T00:00:00Z", .sdk, []⟩ := by
  exact ⟨rfl, rfl, rfl⟩

/-- C5 (amended): on an HTTP 200 response, `resolveIntent` succeeds exactly
when the 12 fields other than `lane` and `metadata` are all present (under
either their snake_case or camelCase key); a missing field among those 12
fails with a non-recoverable `invalid_response` error; and a returned
intent copies every one of the 12 from the response body, while `lane`
defaults to `"sdk"` and `metadata` to the empty map when absent — a
partially-valid intent can escape only through these two defaulted
fields. -/
theorem C5_theorem (raw : RawIntentBody) :
    ((∃ i, resolveIntent (.response 200 (some raw)) = .ok i) ↔
      requiredCorePresent (normalizeResolvedIntent (some raw)) = true)
    ∧ (∀ i, resolveIntent (.response 200 (some raw)) = .ok i →
        i.lane = raw.lane.getD .sdk ∧ i.metadata = raw.metadata.getD [] ∧
        some i.id = raw.id ∧ some i.status = raw.status ∧
        some i.mode = raw.mode ∧ some i.chain = raw.chain ∧
        some i.chain_id = (raw.chain_id <|> raw.chainId) ∧
        some i.confirmations_required =
          (raw.confirmations_required <|> raw.confirmationsRequired) ∧
        some i.amount_units = (raw.amount_units <|> raw.amountUnits) ∧
        some i.decimals = raw.decimals ∧
        some i.token_symbol = (raw.token_symbol <|> raw.tokenSymbol) ∧
        some i.token_address = (raw.token_address <|> raw.tokenAddress) ∧
        some i.expected_wallet = (raw.expected_wallet <|> raw.expectedWallet) ∧
        some i.expires_at = (raw.expires_at <|> raw.expiresAt))
    ∧ (requiredCorePresent (normalizeResolvedIntent (some raw)) = false →
        ∃ m, resolveIntent (.response 200 (some raw)) =
          .error ⟨"invalid_response", m, false⟩) := by
  have hnorm : normalizeResolvedIntent (some raw) =
      ⟨raw.id, raw.status, raw.mode, raw.chain, raw.chain_id <|> raw.chainId,
       raw.confirmations_required <|> raw.confirmationsRequired,
       raw.amount_units <|> raw.amountUnits, raw.decimals,
       raw.token_symbol <|> raw.tokenSymbol,
       raw.token_address <|> raw.tokenAddress,
       raw.expected_wallet <|> raw.expectedWallet,
       raw.expires_at <|> raw.expiresAt,
       some (raw.lane.getD Lane.sdk), some (raw.metadata.getD [])⟩ := rfl
  refine ⟨?_, ?_, ?_⟩
  · rw [resolveIntent_200, checkRequired_ok_iff, hnorm]
    simp [requiredCorePresent, and_assoc]
  · intro i h
    rw [resolveIntent_200] at h
    have hf := checkRequired_ok_fields _ i h
    rw [hnorm] at hf
    obtain ⟨h1, h2, h3, h4, h5, h6, h7, h8, h9, h10, h11, h12, h13, h14⟩ := hf
    refine ⟨?_, ?_, h1.symm, h2.symm, h3.symm, h4.symm, h5.symm, h6.symm,
      h7.symm, h8.symm, h9.symm, h10.symm, h11.symm, h12.symm⟩
    · exact (Option.some_inj.mp h13).symm
    · exact (Option.some_inj.mp h14).symm
  · intro hmiss
    rw [resolveIntent_200]
    cases hc : checkRequired (normalizeResolvedIntent (some raw)) with
    | ok i =>
      have := (checkRequired_ok_iff (normalizeResolvedIntent (some raw))).mp ⟨i, hc⟩
      rw [hnorm] at this hmiss
      simp [requiredCorePresent] at hmiss
      simp_all
    | error e =>
      obtain ⟨k, hk⟩ := checkRequired_error_shape _ e hc
      exact ⟨"Resolve endpoint response missing field: " ++ k, by rw [hk]; rfl⟩

/-- C5 witness: a body with every field present resolves successfully. -/
theorem C5_witness :
    (∃ i, resolveIntent (.response 200
      (some { c5Body with lane := some .manual, metadata := some [("k", "v")] })) = .ok i) :=
  (C5_theorem { c5Body with lane := some .manual, metadata := some [("k", "v")] }).1.mpr
    (by decide)

/-- The Intent Resolver failure contract as the spec states it (§6):
`network_error` recoverable when the fetch throws; `invalid_body` on 400,
`intent_not_found` on 404, `intent_expired` on 410, all non-recoverable;
`rate_limited` recoverable on 429; `server_error` on any other non-ok
status, recoverable iff the status is at least 500; `invalid_response`
non-recoverable on a missing required field (an ok status). -/
def specResolverErrorContract (o : FetchOutcome) (e : PublicError) : Prop :=
  match o with
  | .threw => e.code = "network_error" ∧ e.recoverable = true
  | .response s _ =>
      (s = 400 → e.code = "invalid_body" ∧ e.recoverable = false)
    ∧ (s = 404 → e.code = "intent_not_found" ∧ e.recoverable = false)
    ∧ (s = 410 → e.code = "intent_expired" ∧ e.recoverable = false)
    ∧ (s = 429 → e.code = "rate_limited" ∧ e.recoverable = true)
    ∧ (s ≠ 400 → s ≠ 404 → s ≠ 410 → s ≠ 429 → statusOk s = false →
        e.code = "server_error" ∧ (e.recoverable = true ↔ 500 ≤ s))
    ∧ (statusOk s = true → e.code = "invalid_response" ∧ e.recoverable = false)

/-- C7: every failure of `resolveIntent` satisfies the spec's resolver
contract, and its code is one of the seven contract codes. -/
theorem C7_theorem (o : FetchOutcome) (e : PublicError)
    (h : resolveIntent o = .error e) :
    specResolverErrorContract o e
    ∧ (e.code = "network_error" ∨ e.code = "invalid_body" ∨
       e.code = "intent_not_found" ∨ e.code = "intent_expired" ∨
       e.code = "rate_limited" ∨ e.code = "server_error" ∨
       e.code = "invalid_response") := by
  cases o with
  | threw =>
    simp only [resolveIntent] at h
    injection h with h
    subst h
    exact ⟨⟨rfl, rfl⟩, Or.inl rfl⟩
  | response s b =>
    simp only [resolveIntent] at h
    split_ifs at h with h1 h2 h3 h4 h5
    · injection h with h
      subst h
      subst h1
      simp [specResolverErrorContract, statusOk]
    · injection h with h
      subst h
      subst h2
      simp [specResolverErrorContract, statusOk, h1]
    · injection h with h
      subst h
      subst h3
      simp [specResolverErrorContract, statusOk, h1, h2]
    · injection h with h
      subst h
      subst h4
      simp [specResolverErrorContract, statusOk, h1, h2, h3]
    · injection h with h
      subst h
      have hso : statusOk s = false := by
        revert h5
        cases statusOk s <;> simp
      simp [specResolverErrorContract, h1, h2, h3, h4, hso, decide_eq_true_iff]
    · have hso : statusOk s = true := by
        revert h5
        cases statusOk s <;> simp
      obtain ⟨k, hk⟩ := checkRequired_error_shape _ e h
      subst hk
      simp [specResolverErrorContract, missingFieldError, h1, h2, h3, h4, hso]

/-- C7 witness: an HTTP 503 failure satisfies the contract (a
`server_error`, recoverable because the status is at least 500). -/
theorem C7_witness :
    specResolverErrorContract (.response 503 none)
      ⟨"server_error",
       "Server error while resolving payment intent (HTTP " ++ toString 503 ++ ").",
       decide (500 ≤ 503)⟩ :=
  (C7_theorem (.response 503 none) _ rfl).1

/-! ## Claim C3: wallet-flow failure handling -/

/-- A single `onUpdate` invocation never emits an error. -/
theorem onUpdateStep_errorFree (θ I S : Nat) (stop : Nat → Bool)
    (ps : Option Nat) (n : Nat) (intent : ResolvedPaymentIntent) :
    errorFreeTrace (onUpdateStep θ I S stop ps n intent).2 = true := by
  unfold onUpdateStep
  split
  · simp [errorFreeTrace]
  · split
    · split <;> (dsimp only; split <;> simp [errorFreeTrace, isNonErrorEmit])
    · simp [errorFreeTrace, isNonErrorEmit]
    · simp [errorFreeTrace, isNonErrorEmit]

/-- No `onUpdate` trace contains an error emission. -/
theorem runUpdatesGo_errorFree (θ I S : Nat) (stop : Nat → Bool)
    (res : Nat → Except ThrownValue ResolvedPaymentIntent) :
    ∀ left n ps accRev, errorFreeTrace accRev = true →
    errorFreeTrace (runUpdatesGo θ I S stop res n left ps accRev).emits = true := by
  intro left
  induction left with
  | zero =>
    intro n ps accRev hacc
    simp only [runUpdatesGo]
    simpa [errorFreeTrace] using hacc
  | succ left ih =>
    intro n ps accRev hacc
    cases hr : res n with
    | error e =>
      simp only [runUpdatesGo, hr]
      exact ih (n + 1) ps accRev hacc
    | ok intent =>
      simp only [runUpdatesGo, hr]
      apply ih
      have hstep := onUpdateStep_errorFree θ I S stop ps n intent
      simp only [errorFreeTrace] at hstep hacc ⊢
      simp [List.all_append, hstep, hacc]

/-- The state the fold `lastPublished` returns was published in the trace
(or was already the accumulator). -/
theorem lastPublished_mem (s : CheckoutState) :
    ∀ (es : List Emit) (acc : Option CheckoutState),
    es.foldl (fun acc e => match e with | .published s2 => some s2 | _ => acc) acc =
      some s →
    Emit.published s ∈ es ∨ acc = some s := by
  intro es
  induction es with
  | nil => intro acc h; exact Or.inr h
  | cons e es ih =>
    intro acc h
    rcases ih _ h with hmem | hacc
    · exact Or.inl (List.mem_cons_of_mem e hmem)
    · cases he : e with
      | published s2 =>
        rw [he] at hacc
        have : s2 = s := Option.some_inj.mp hacc
        subst this
        exact Or.inl (List.mem_cons_self _ _)
      | cbClose => rw [he] at hacc; exact Or.inr hacc
      | cbSuccess a b cc d => rw [he] at hacc; exact Or.inr hacc
      | cbAwaitingConfirmation a => rw [he] at hacc; exact Or.inr hacc
      | cbError a => rw [he] at hacc; exact Or.inr hacc

/-- In an error-free trace the last published state is not `error`. -/
theorem lastPublished_not_error (es : List Emit) (h : errorFreeTrace es = true)
    (pe : PublicError) (li : Option ResolvedPaymentIntent) :
    lastPublished es ≠ some (.error pe li) := by
  intro hl
  rcases lastPublished_mem (.error pe li) es none hl with hmem | hacc
  · simp only [errorFreeTrace, List.all_eq_true] at h
    have := h _ hmem
    simp [isNonErrorEmit] at this
  · cases hacc

/-- An error-free trace contains no `onError` invocation. -/
theorem errorFree_countCbError (es : List Emit)
    (h : errorFreeTrace es = true) : countCbError es = 0 := by
  simp only [countCbError, List.countP_eq_zero]
  intro e hmem
  simp only [errorFreeTrace, List.all_eq_true] at h
  have := h e hmem
  cases e <;> simp_all [isNonErrorEmit]

/-- A trace of wallet progress publications contains no `onError`
invocation and no error emission at all. -/
theorem progress_errorFree (es : List Emit)
    (h : ∀ x ∈ es, isWalletProgressEmit x = true) :
    errorFreeTrace es = true := by
  simp only [errorFreeTrace, List.all_eq_true]
  intro e hmem
  have := h e hmem
  cases e with
  | published s => cases s <;> simp_all [isWalletProgressEmit, isNonErrorEmit]
  | cbClose => simp_all [isWalletProgressEmit]
  | cbSuccess a b cc d => simp_all [isWalletProgressEmit]
  | cbAwaitingConfirmation a => simp_all [isWalletProgressEmit]
  | cbError a => simp_all [isWalletProgressEmit]

/-- A polling run over an infallible resolver that was not stopped at entry
surfaces no error: its trace is error-free and its final state is not the
`error` state. -/
theorem startPolling_ok_run (c : Ctl) (penv : PollEnv)
    (intent : ResolvedPaymentIntent)
    (hres : ∀ n, (penv.resolve n).isOk = true)
    (hsr : c.stopRequested = false) :
    errorFreeTrace (startPolling c penv intent).2 = true
    ∧ ∀ pe li, (startPolling c penv intent).1.state ≠ .error pe li := by
  simp only [startPolling, hsr, Bool.false_eq_true, if_false]
  cases hw : waitForFinalStatus penv.resolve c.pollIntervalMs c.pollTimeoutMs with
  | none =>
    refine ⟨by simp [errorFreeTrace, isNonErrorEmit], ?_⟩
    intro pe li
    simp
  | some out =>
    obtain ⟨i, t, cnt, rfl⟩ :=
      waitAux_ok_finished penv.resolve c.pollIntervalMs c.pollTimeoutMs hres
        (pollFuel c.pollIntervalMs c.pollTimeoutMs) 0 out hw
    have hupd : errorFreeTrace
        (runUpdates c.awaitingThresholdMs c.pollIntervalMs penv.startTime
          penv.stopAt penv.resolve (PollOutcome.finished i t cnt).count).emits = true :=
      runUpdatesGo_errorFree c.awaitingThresholdMs c.pollIntervalMs penv.startTime
        penv.stopAt penv.resolve ((PollOutcome.finished i t cnt).count) 0 none [] rfl
    have hlast : ∀ pe li,
        (lastPublished (runUpdates c.awaitingThresholdMs c.pollIntervalMs
          penv.startTime penv.stopAt penv.resolve
          (PollOutcome.finished i t cnt).count).emits).getD
            (CheckoutState.waiting intent none) ≠ .error pe li := by
      intro pe li
      cases hlp : lastPublished (runUpdates c.awaitingThresholdMs c.pollIntervalMs
          penv.startTime penv.stopAt penv.resolve
          (PollOutcome.finished i t cnt).count).emits with
      | none => simp
      | some s =>
        simp only [Option.getD_some]
        intro hcontra
        subst hcontra
        exact lastPublished_not_error _ hupd pe li hlp
    dsimp only
    constructor
    · have hupd' := hupd
      simp only [errorFreeTrace] at hupd'
      split_ifs <;>
        simp [errorFreeTrace, List.all_append, isNonErrorEmit, hupd']
    · intro pe li
      split_ifs <;> first
        | (simp only []; exact hlast pe li)
        | simp

theorem handleWalletFailure_manual (c : Ctl) (penv : PollEnv)
    (intent : ResolvedPaymentIntent) (e : ThrownValue)
    (ham : c.config.allowManual = true) :
    handleWalletFailure c penv intent e =
      withPre [.published (.choose_method intent .manual (some (toPublicError e).message)),
               .published (.manual_instructions intent)]
        (startPolling { c with state := .manual_instructions intent } penv intent) := by
  simp [handleWalletFailure, ham]

theorem handleWalletFailure_noManual (c : Ctl) (penv : PollEnv)
    (intent : ResolvedPaymentIntent) (e : ThrownValue)
    (ham : c.config.allowManual = false) :
    handleWalletFailure c penv intent e =
      ({ c with state := .error (toPublicError e) (some intent) },
       [.cbError (toPublicError e), .published (.error (toPublicError e) (some intent))]) := by
  simp [handleWalletFailure, ham]

theorem startWalletFlow_thrown (c : Ctl) (env : WalletEnv) (penv : PollEnv)
    (intent : ResolvedPaymentIntent) (e : ThrownValue)
    (h : walletFlowThrown env intent = some e) :
    ∃ pre s, (∀ x ∈ pre, isWalletProgressEmit x = true) ∧
      startWalletFlow c env penv intent =
        withPre pre (handleWalletFailure { c with state := s } penv intent e) := by
  unfold walletFlowThrown at h
  unfold startWalletFlow
  by_cases hp : env.provider = false
  · rw [if_pos hp] at h ⊢
    obtain rfl := Option.some_inj.mp h
    exact ⟨[], c.state, by simp, rfl⟩
  · rw [if_neg hp] at h ⊢
    cases hacc : env.accounts with
    | error e2 =>
      simp only [hacc] at h ⊢
      obtain rfl := Option.some_inj.mp h
      exact ⟨[.published (.wallet_connecting intent)], .wallet_connecting intent,
        by simp [isWalletProgressEmit], rfl⟩
    | ok accounts =>
      simp only [hacc] at h ⊢
      cases hhd : accounts.head? with
      | none =>
        simp only [hhd] at h ⊢
        obtain rfl := Option.some_inj.mp h
        exact ⟨[.published (.wallet_connecting intent)], .wallet_connecting intent,
          by simp [isWalletProgressEmit], rfl⟩
      | some fromAddr =>
        simp only [hhd] at h ⊢
        cases hcid : env.chainId1 with
        | error e2 =>
          simp only [hcid] at h ⊢
          obtain rfl := Option.some_inj.mp h
          exact ⟨[.published (.wallet_connecting intent)], .wallet_connecting intent,
            by simp [isWalletProgressEmit], rfl⟩
        | ok cid =>
          simp only [hcid] at h ⊢
          by_cases hne : cid ≠ intent.chain_id
          · rw [if_pos hne] at h ⊢
            cases hsw : env.switchRes with
            | error e2 =>
              simp only [hsw] at h ⊢
              obtain rfl := Option.some_inj.mp h
              exact ⟨[.published (.wallet_connecting intent),
                      .published (.wallet_switching_chain intent)],
                .wallet_switching_chain intent,
                by simp [isWalletProgressEmit], by simp [withPre]⟩
            | ok u =>
              simp only [hsw] at h ⊢
              cases hcid2 : env.chainId2 with
              | error e2 =>
                simp only [hcid2] at h ⊢
                obtain rfl := Option.some_inj.mp h
                exact ⟨[.published (.wallet_connecting intent),
                        .published (.wallet_switching_chain intent)],
                  .wallet_switching_chain intent,
                  by simp [isWalletProgressEmit], by simp [withPre]⟩
              | ok cid2 =>
                simp only [hcid2] at h ⊢
                by_cases hne2 : cid2 ≠ intent.chain_id
                · rw [if_pos hne2] at h ⊢
                  obtain rfl := Option.some_inj.mp h
                  exact ⟨[.published (.wallet_connecting intent),
                          .published (.wallet_switching_chain intent)],
                    .wallet_switching_chain intent,
                    by simp [isWalletProgressEmit], by simp [withPre]⟩
                · rw [if_neg hne2] at h ⊢
                  cases hsend : env.sendRes with
                  | error e2 =>
                    simp only [hsend] at h
                    obtain rfl := Option.some_inj.mp h
                    refine ⟨[.published (.wallet_connecting intent),
                             .published (.wallet_switching_chain intent),
                             .published (.wallet_sending intent fromAddr)],
                      .wallet_sending intent fromAddr,
                      by simp [isWalletProgressEmit], ?_⟩
                    simp [walletSendPhase, hsend, withPre]
                  | ok tx =>
                    simp only [hsend] at h
                    exact Option.noConfusion h
          · rw [if_neg hne] at h ⊢
            cases hsend : env.sendRes with
            | error e2 =>
              simp only [hsend] at h
              obtain rfl := Option.some_inj.mp h
              refine ⟨[.published (.wallet_connecting intent),
                       .published (.wallet_sending intent fromAddr)],
                .wallet_sending intent fromAddr,
                by simp [isWalletProgressEmit], ?_⟩
              simp [walletSendPhase, hsend, withPre]
            | ok tx =>
              simp only [hsend] at h
              exact Option.noConfusion h

/-- C3: for every failure thrown in wallet-flow steps 1-4 (no provider, no
account, chain mismatch after switch, send failure — any environment with
`walletFlowThrown env intent = some e`), given an infallible resolver and
no pending stop: when manual payment is enabled the orchestrator's trace is
error-free (no `onError`, no `error` state, final state not `error`) and,
after the wallet progress publications, re-enters `choose_method` with
`selected = manual` and the normalized message as banner, immediately
advances to `manual_instructions`, and starts polling (the `waiting`
publication follows); when manual payment is disabled it fires `onError`
exactly once and ends in the terminal `error` state retaining the intent;
and a thrown `{code: 4001}` normalizes to `wallet_user_rejected`,
recoverable. -/
theorem C3_theorem (c : Ctl) (env : WalletEnv) (penv : PollEnv)
    (intent : ResolvedPaymentIntent) (e : ThrownValue)
    (hthrown : walletFlowThrown env intent = some e)
    (hres : ∀ n, (penv.resolve n).isOk = true)
    (hsr : c.stopRequested = false) :
    (c.config.allowManual = true →
      errorFreeTrace (startWalletFlow c env penv intent).2 = true
      ∧ (∀ pe li, (startWalletFlow c env penv intent).1.state ≠ .error pe li)
      ∧ ∃ pre rest, (∀ x ∈ pre, isWalletProgressEmit x = true) ∧
          (startWalletFlow c env penv intent).2 =
            pre ++ .published (.choose_method intent .manual
                (some (toPublicError e).message)) ::
              .published (.manual_instructions intent) ::
              .published (.waiting intent none) :: rest)
    ∧ (c.config.allowManual = false →
        countCbError (startWalletFlow c env penv intent).2 = 1
        ∧ (startWalletFlow c env penv intent).1.state =
            .error (toPublicError e) (some intent)
        ∧ ∃ pre, (∀ x ∈ pre, isWalletProgressEmit x = true) ∧
            (startWalletFlow c env penv intent).2 =
              pre ++ [.cbError (toPublicError e),
                      .published (.error (toPublicError e) (some intent))])
    ∧ (e.code = some (.num 4001) →
        (toPublicError e).code = "wallet_user_rejected" ∧
        (toPublicError e).recoverable = true) := by
  obtain ⟨pre, st, hpre, heq⟩ := startWalletFlow_thrown c env penv intent e hthrown
  refine ⟨?_, ?_, ?_⟩
  · intro ham
    have ham' : ({ c with state := st } : Ctl).config.allowManual = true := ham
    rw [heq, handleWalletFailure_manual _ _ _ _ ham']
    obtain ⟨rest, hrest⟩ := startPolling_head
      { c with state := CheckoutState.manual_instructions intent } penv intent hsr
    have hpoll := startPolling_ok_run
      { c with state := CheckoutState.manual_instructions intent } penv intent hres hsr
    refine ⟨?_, ?_, pre, rest, hpre, ?_⟩
    · simp only [withPre, errorFreeTrace, List.all_append]
      have h1 : List.all pre isNonErrorEmit = true := progress_errorFree pre hpre
      have h2 := hpoll.1
      simp only [errorFreeTrace] at h2
      simp [h1, h2, isNonErrorEmit]
    · intro pe li
      simp only [withPre]
      exact hpoll.2 pe li
    · simp only [withPre, hrest]
      simp
  · intro ham
    have ham' : ({ c with state := st } : Ctl).config.allowManual = false := ham
    rw [heq, handleWalletFailure_noManual _ _ _ _ ham']
    refine ⟨?_, rfl, pre, hpre, ?_⟩
    · have h1 : countCbError pre = 0 :=
        errorFree_countCbError pre (progress_errorFree pre hpre)
      simp [withPre, countCbError, List.countP_append, List.countP_cons]
      simpa [countCbError] using h1
    · simp [withPre]
  · intro hc
    simp [toPublicError, hc]

/-- The wallet environment of the C3 witness: account request rejected with
the EIP-1193 user-rejection code 4001. -/
def rejectEnv : WalletEnv :=
  ⟨true, .error ⟨some (.num 4001), some "User rejected the request.", none, true⟩,
   .ok 8453, .ok (), .ok 8453, .ok "0xhash"⟩

/-- C3 witness: with manual payment disabled and the wallet throwing
`{code: 4001}`, the flow fires `onError` once and ends in the terminal
`error` state with `wallet_user_rejected`, recoverable, retaining the
intent. -/
theorem C3_witness :
    countCbError (startWalletFlow (mkController (some false) none none)
      rejectEnv c6Env pendingIntent).2 = 1
    ∧ (startWalletFlow (mkController (some false) none none)
        rejectEnv c6Env pendingIntent).1.state =
      .error ⟨"wallet_user_rejected", "You cancelled the request in your wallet.", true⟩
        (some pendingIntent) := by
  have h := C3_theorem (mkController (some false) none none) rejectEnv c6Env
    pendingIntent ⟨some (.num 4001), some "User rejected the request.", none, true⟩
    (by decide) (by intro n; by_cases hn : n < 3 <;> simp [c6Env, hn, Except.isOk, Except.toBool]) rfl
  obtain ⟨hcount, hstate, _⟩ := h.2.1 rfl
  exact ⟨hcount, hstate⟩

end KryptoPay
